import Mathlib

/-! The jitter buffer and the audio codec session of toxav/audio.c.

A shallow embedding of `src/toxav/audio.c`.

* C unsigned integers are natural numbers reduced explicitly: `to_uint16` and
  `to_uint32` are the conversions C performs when an `int` expression is cast
  or assigned to `uint16_t` resp. `uint32_t`.  Operands of type `uint16_t` are
  promoted to `int` before arithmetic, so differences such as
  `sequnum - q->bottom` are computed in `Int`.
* Pointers to `RTPMessage` stored in the queue are `Option RTPMessage`
  (`none` is `NULL`).
* Calls of `rtp_free_msg` are recorded as the list of messages passed to it.
* The Opus library, the clock and the allocator are the environment: what
  they answer is an argument of the function that calls them, and the calls
  of `ac_do` and `ac_queue_message` are recorded as a trace of events.
-/

namespace Toxav

/-! ## C integer conversions -/

/-- Conversion of an integer value to `uint16_t`. -/
def to_uint16 (i : Int) : Nat := (i % 65536).toNat

/-- Conversion of an integer value to `uint32_t`. -/
def to_uint32 (i : Int) : Nat := (i % 4294967296).toNat

/-- Conversion of an integer value to `uint64_t`. -/
def to_uint64 (i : Int) : Nat := (i % 18446744073709551616).toNat

/-! ## Data model -/

/-- Modelled from the spec: `RTPMessage` is declared in `rtp.h`, which is not
among the sources. It is the frame of the spec as far as `audio.c` looks into
it: `header->sequnum` (a 16-bit sequence number) and the payload bytes `data`
(`length` is the length of `data`). -/
structure RTPMessage where
  sequnum : Nat
  data : List Nat
deriving DecidableEq, Repr

/-- The `struct JitterBuffer` of `audio.c` (lines 231-237). `queue` is the
array of `size` message pointers, `bottom` and `top` are `uint16_t`. -/
structure JitterBuffer where
  queue : List (Option RTPMessage)
  size : Nat
  capacity : Nat
  bottom : Nat
  top : Nat
deriving DecidableEq, Repr

/-- A value of `struct JitterBuffer` as C can hold it: the array has `size`
entries, `size` is positive (it indexes by `% size`), and every field is in
the range of its C type. -/
def JitterBuffer.WF (q : JitterBuffer) : Prop :=
  q.queue.length = q.size ∧ 0 < q.size ∧ q.size < 4294967296 ∧
    q.capacity < 4294967296 ∧ q.bottom < 65536 ∧ q.top < 65536

instance (q : JitterBuffer) : Decidable q.WF := by
  unfold JitterBuffer.WF; infer_instance

/-- The entry `q->queue[i]`. -/
def JitterBuffer.slot (q : JitterBuffer) (i : Nat) : Option RTPMessage :=
  q.queue.getD i none

/-! ## jbuf_new (lines 239-259) -/

/-- The sizing loop `while (size <= (capacity * 4)) size *= 2;` on
`unsigned int`, with a bound on the number of iterations; `none` when the
bound is reached. -/
def jbuf_new_loop : Nat → Nat → Nat → Option Nat
  | 0, _, _ => none
  | fuel + 1, capacity, size =>
    if size ≤ to_uint32 (capacity * 4) then
      jbuf_new_loop fuel capacity (to_uint32 (size * 2))
    else some size

/-- The function `jbuf_new`. `calloc_q` and `calloc_queue` say whether the two
`calloc` calls succeed; `none` is the `NULL` result (or a sizing loop that
does not end). `calloc` zeroes the memory: every slot is `NULL`, `bottom` and
`top` are 0. -/
def jbuf_new (capacity : Nat) (calloc_q calloc_queue : Bool) : Option JitterBuffer :=
  match jbuf_new_loop 64 capacity 1 with
  | none => none
  | some size =>
    if !calloc_q then none
    else if !calloc_queue then none
    else some { queue := List.replicate size none, size := size,
                capacity := capacity, bottom := 0, top := 0 }

/-! ## jbuf_clear (lines 260-268) -/

/-- The loop `for (; q->bottom != q->top; ++q->bottom)` of `jbuf_clear`, with
a bound on the number of iterations. The second component collects the
messages passed to `rtp_free_msg`. -/
def jbuf_clear_loop : Nat → JitterBuffer → List RTPMessage → JitterBuffer × List RTPMessage
  | 0, q, freed => (q, freed)
  | fuel + 1, q, freed =>
    if q.bottom ≠ q.top then
      match q.slot (q.bottom % q.size) with
      | some m =>
        jbuf_clear_loop fuel
          { q with queue := q.queue.set (q.bottom % q.size) none,
                   bottom := to_uint16 (q.bottom + 1) }
          (freed ++ [m])
      | none =>
        jbuf_clear_loop fuel { q with bottom := to_uint16 (q.bottom + 1) } freed
    else (q, freed)

/-- The function `jbuf_clear`: the cleared buffer and the freed messages. A
16-bit counter reaches `top` from `bottom` in fewer than 65536 increments. -/
def jbuf_clear (q : JitterBuffer) : JitterBuffer × List RTPMessage :=
  jbuf_clear_loop 65536 q []

/-- The function `jbuf_free` (lines 269-276): `jbuf_clear`, then the array and
the struct are released; what is observable are the messages freed. -/
def jbuf_free (q : Option JitterBuffer) : List RTPMessage :=
  match q with
  | none => []
  | some q => (jbuf_clear q).2

/-! ## jbuf_write (lines 277-302) -/

/-- The outcome of `jbuf_write`: the return value, the buffer afterwards and
the messages passed to `rtp_free_msg` during the call. -/
structure WriteResult where
  ret : Int
  q : JitterBuffer
  freed : List RTPMessage
deriving DecidableEq, Repr

/-- The function `jbuf_write`. -/
def jbuf_write (q : JitterBuffer) (m : RTPMessage) : WriteResult :=
  let sequnum : Nat := to_uint16 m.sequnum
  let num : Nat := sequnum % q.size
  if to_uint32 ((sequnum : Int) - (q.bottom : Int)) > q.size then
    let c := jbuf_clear q
    { ret := 0,
      q := { c.1 with bottom := to_uint16 (to_uint32 ((sequnum : Int) - (c.1.capacity : Int))),
                      queue := c.1.queue.set num (some m),
                      top := to_uint16 ((sequnum : Int) + 1) },
      freed := c.2 }
  else if (q.slot num).isSome then
    { ret := -1, q := q, freed := [] }
  else if ((sequnum : Int) - (q.bottom : Int)) ≥ ((q.top : Int) - (q.bottom : Int)) then
    { ret := 0,
      q := { q with queue := q.queue.set num (some m), top := to_uint16 ((sequnum : Int) + 1) },
      freed := [] }
  else
    { ret := 0, q := { q with queue := q.queue.set num (some m) }, freed := [] }

/-! ## jbuf_read (lines 303-328) -/

/-- The outcome of `jbuf_read`: the returned pointer, the value stored in
`*success` and the buffer afterwards. -/
structure ReadResult where
  msg : Option RTPMessage
  success : Int
  q : JitterBuffer
deriving DecidableEq, Repr

/-- The function `jbuf_read`. -/
def jbuf_read (q : JitterBuffer) : ReadResult :=
  if q.top = q.bottom then
    { msg := none, success := 0, q := q }
  else
    match q.slot (q.bottom % q.size) with
    | some ret =>
      { msg := some ret, success := 1,
        q := { q with queue := q.queue.set (q.bottom % q.size) none,
                      bottom := to_uint16 (q.bottom + 1) } }
    | none =>
      if to_uint32 ((q.top : Int) - (q.bottom : Int)) > q.capacity then
        { msg := none, success := 2, q := { q with bottom := to_uint16 (q.bottom + 1) } }
      else
        { msg := none, success := 0, q := q }

/-! ## Call sequences on a jitter buffer -/

/-- Consecutive `jbuf_write` calls, one per message of the list in arrival
order: the buffer afterwards and the return value of every call. -/
def jbuf_write_list (q : JitterBuffer) : List RTPMessage → JitterBuffer × List Int
  | [] => (q, [])
  | m :: ms =>
    ((jbuf_write_list (jbuf_write q m).q ms).1,
     (jbuf_write q m).ret :: (jbuf_write_list (jbuf_write q m).q ms).2)

/-- Consecutive `jbuf_read` calls, `n` of them: the buffer afterwards and, for
every call, the returned pointer and the value of `*success`. -/
def jbuf_read_times : Nat → JitterBuffer → JitterBuffer × List (Option RTPMessage × Int)
  | 0, q => (q, [])
  | n + 1, q =>
    ((jbuf_read_times n (jbuf_read q).q).1,
     ((jbuf_read q).msg, (jbuf_read q).success) :: (jbuf_read_times n (jbuf_read q).q).2)

/-- The buffer states that `jbuf_new capacity` followed by any sequence of
`jbuf_write` and `jbuf_read` calls can produce. `capacity` is a `uint32_t`
and the sequence number of a message is a `uint16_t`. -/
inductive Reachable (capacity : Nat) : JitterBuffer → Prop
  | new (q : JitterBuffer) (a b : Bool) :
      capacity < 4294967296 → jbuf_new capacity a b = some q → Reachable capacity q
  | write (q : JitterBuffer) (m : RTPMessage) :
      Reachable capacity q → m.sequnum < 65536 → Reachable capacity (jbuf_write q m).q
  | read (q : JitterBuffer) :
      Reachable capacity q → Reachable capacity (jbuf_read q).q

/-- The states of `Reachable` in whose history no written message had a
sequence number exactly `size` above `bottom` at the time of its write. -/
inductive ReachableInside (capacity : Nat) : JitterBuffer → Prop
  | new (q : JitterBuffer) (a b : Bool) :
      capacity < 4294967296 → jbuf_new capacity a b = some q → ReachableInside capacity q
  | write (q : JitterBuffer) (m : RTPMessage) :
      ReachableInside capacity q → m.sequnum < 65536 → m.sequnum ≠ q.bottom + q.size →
      ReachableInside capacity (jbuf_write q m).q
  | read (q : JitterBuffer) :
      ReachableInside capacity q → ReachableInside capacity (jbuf_read q).q

/-- A message with sequence number `s` and an empty payload. -/
def frame (s : Nat) : RTPMessage := { sequnum := s, data := [] }

/-- A buffer without messages: `size` empty slots and `bottom = top = b`. -/
def empty_buffer (size capacity b : Nat) : JitterBuffer :=
  { queue := List.replicate size none, size := size, capacity := capacity,
    bottom := b, top := b }

/-! ## The codec session -/

/-- The Opus status code `OPUS_OK`. -/
def OPUS_OK : Int := 0

/-- Modelled from the spec: `ACSession` is declared in `audio.h`, which is not
among the sources. It has the fields `audio.c` reads and writes, which are
the attributes the spec lists for the codec session. Codec handles, `av`, and
the callback pointers are addresses (`acb_first` is `none` when no callback
is registered); `last_decoder_reconfiguration` is the unsigned 64-bit
millisecond reading of `current_time_monotonic`. -/
structure ACSession where
  encoder : Nat
  last_encoding_sampling_rate : Int
  last_encoding_channel_count : Int
  last_encoding_bitrate : Int
  decoder : Nat
  last_packet_channel_count : Int
  last_packet_sampling_rate : Int
  last_packet_frame_duration : Int
  last_decoding_sampling_rate : Int
  last_decoding_channel_count : Int
  last_decoder_reconfiguration : Nat
  j_buf : JitterBuffer
  av : Nat
  friend_id : Nat
  acb_first : Option Nat
  acb_second : Nat
deriving DecidableEq, Repr

/-- The outcome of `reconfigure_audio_decoder`: the return value, the session
afterwards and the decoders passed to `opus_decoder_destroy`. -/
structure DecoderReconf where
  ret : Bool
  ac : ACSession
  destroyed : List Nat
deriving DecidableEq, Repr

/-- The function `reconfigure_audio_decoder` (lines 359-383). `now_check` and
`now_set` are the two readings of `current_time_monotonic` (line 362 and line
374); `new_dec` and `status` are what `opus_decoder_create` hands back. -/
def reconfigure_audio_decoder (ac : ACSession) (sampling_rate channels : Int)
    (now_check now_set : Nat) (new_dec : Nat) (status : Int) : DecoderReconf :=
  if sampling_rate ≠ ac.last_decoding_sampling_rate ∨
      channels ≠ ac.last_decoding_channel_count then
    if to_uint64 ((now_check : Int) - (ac.last_decoder_reconfiguration : Int)) < 500 then
      { ret := false, ac := ac, destroyed := [] }
    else if status ≠ OPUS_OK then
      { ret := false, ac := ac, destroyed := [] }
    else
      { ret := true,
        ac := { ac with last_decoding_sampling_rate := sampling_rate,
                        last_decoding_channel_count := channels,
                        last_decoder_reconfiguration := now_set,
                        decoder := new_dec },
        destroyed := [ac.decoder] }
  else
    { ret := true, ac := ac, destroyed := [] }

/-- The message of `ms` with sequence number `k` (a default when there is
none). -/
def message_of (ms : List RTPMessage) (k : Nat) : RTPMessage :=
  (ms.find? (fun m => decide (m.sequnum = k))).getD (frame 0)

/-- The messages returned by a run of reads. -/
def returned_messages (rs : List (Option RTPMessage × Int)) : List RTPMessage :=
  rs.filterMap Prod.fst

/-! ## Signed conversions and the arithmetic of ac_do -/

/-- Conversion of an integer value to `int32_t` (two's complement). -/
def to_int32 (i : Int) : Int := (i + 2147483648) % 4294967296 - 2147483648

/-- Conversion of an integer value to `int8_t` (two's complement). -/
def to_int8 (i : Int) : Int := (i + 128) % 256 - 128

/-- The length of `int16_t tmp[5760]` in `ac_do` (line 122). -/
def tmp_length : Nat := 5760

/-- The `frame_size` argument of the `opus_decode` call of line 165: the
number of samples per channel that the decoder may write. -/
def decode_frame_size : Int := 5760

/-- The number of `int16_t` samples `opus_decode` may write to its output
buffer: `frame_size` samples for every channel, interleaved. -/
def decode_output_samples (frame_size channels : Int) : Int := frame_size * channels

/-- The `frame_size` argument of the concealment call (lines 134-135):
`(last_packet_sampling_rate * last_packet_frame_duration / 1000) /
last_packet_channel_count` on `int32_t`, `none` when the divisor is 0. C
division truncates towards zero; a product out of range wraps. -/
def plc_frame_size (sampling_rate frame_duration channel_count : Int) : Option Int :=
  if channel_count = 0 then none
  else some (Int.tdiv (Int.tdiv (to_int32 (sampling_rate * frame_duration)) 1000)
    channel_count)

/-- The value stored in `last_packet_frame_duration` (line 172):
`(rc * 1000) / last_packet_sampling_rate * last_packet_channel_count`, `none`
when the divisor is 0. -/
def frame_duration (rc sampling_rate channel_count : Int) : Option Int :=
  if sampling_rate = 0 then none
  else some (to_int32 (Int.tdiv (to_int32 (rc * 1000)) sampling_rate * channel_count))

/-- The sampling rate carried in the first four payload bytes (lines 150-151):
`memcpy` into an `int32_t`, then `ntohl`, i.e. the bytes read as a big-endian
number. -/
def packet_sampling_rate (data : List Nat) : Int :=
  to_int32 (((data.getD 0 0 % 256 * 16777216 + data.getD 1 0 % 256 * 65536 +
    data.getD 2 0 % 256 * 256 + data.getD 3 0 % 256 : Nat) : Int))

/-! ## The encoder (lines 182-212 and 329-358) -/

/-- The calls into the Opus encoder API. -/
inductive CodecCall where
  | opus_encoder_create (sampling_rate channel_count : Int)
  | opus_encoder_ctl_bitrate (encoder : Nat) (bitrate : Int)
  | opus_encoder_ctl_complexity (encoder : Nat) (complexity : Int)
  | opus_encoder_destroy (encoder : Nat)
deriving DecidableEq, Repr

/-- What the Opus library answers while `create_audio_encoder` runs: the new
handle and the status of `opus_encoder_create` and of the two control calls. -/
structure EncoderCreation where
  handle : Nat
  create_status : Int
  bitrate_status : Int
  complexity_status : Int
deriving DecidableEq, Repr

/-- The function `create_audio_encoder`: the returned handle (`none` is
`NULL`) and the calls made. -/
def create_audio_encoder (e : EncoderCreation) (bitrate sampling_rate channel_count : Int) :
    Option Nat × List CodecCall :=
  if e.create_status ≠ OPUS_OK then
    (none, [CodecCall.opus_encoder_create sampling_rate channel_count])
  else if e.bitrate_status ≠ OPUS_OK then
    (none, [CodecCall.opus_encoder_create sampling_rate channel_count,
            CodecCall.opus_encoder_ctl_bitrate e.handle bitrate,
            CodecCall.opus_encoder_destroy e.handle])
  else if e.complexity_status ≠ OPUS_OK then
    (none, [CodecCall.opus_encoder_create sampling_rate channel_count,
            CodecCall.opus_encoder_ctl_bitrate e.handle bitrate,
            CodecCall.opus_encoder_ctl_complexity e.handle 10,
            CodecCall.opus_encoder_destroy e.handle])
  else
    (some e.handle, [CodecCall.opus_encoder_create sampling_rate channel_count,
                     CodecCall.opus_encoder_ctl_bitrate e.handle bitrate,
                     CodecCall.opus_encoder_ctl_complexity e.handle 10])

/-- The outcome of `ac_reconfigure_encoder`: the return value, the session
afterwards and the calls into the encoder API. -/
structure EncoderReconf where
  ret : Int
  ac : ACSession
  calls : List CodecCall
deriving DecidableEq, Repr

/-- The function `ac_reconfigure_encoder` for a session that exists.
`channels` is the `uint8_t` argument; `e` holds the answers to the calls of
`create_audio_encoder` and `ctl_status` the answer to the live
`opus_encoder_ctl(OPUS_SET_BITRATE)` of line 198. -/
def ac_reconfigure_encoder (ac : ACSession) (bitrate sampling_rate : Int) (channels : Nat)
    (e : EncoderCreation) (ctl_status : Int) : EncoderReconf :=
  if ac.last_encoding_sampling_rate ≠ sampling_rate ∨
      ac.last_encoding_channel_count ≠ (channels : Int) then
    match create_audio_encoder e bitrate sampling_rate channels with
    | (none, calls) => { ret := -1, ac := ac, calls := calls }
    | (some new_encoder, calls) =>
      { ret := 0,
        ac := { ac with encoder := new_encoder,
                        last_encoding_bitrate := bitrate,
                        last_encoding_sampling_rate := sampling_rate,
                        last_encoding_channel_count := channels },
        calls := calls ++ [CodecCall.opus_encoder_destroy ac.encoder] }
  else if ac.last_encoding_bitrate = bitrate then
    { ret := 0, ac := ac, calls := [] }
  else if ctl_status ≠ OPUS_OK then
    { ret := -1, ac := ac, calls := [CodecCall.opus_encoder_ctl_bitrate ac.encoder bitrate] }
  else
    { ret := 0,
      ac := { ac with last_encoding_bitrate := bitrate,
                      last_encoding_sampling_rate := sampling_rate,
                      last_encoding_channel_count := channels },
      calls := [CodecCall.opus_encoder_ctl_bitrate ac.encoder bitrate] }

/-! ## ac_new (lines 40-101) and ac_queue_message (lines 214-227) -/

/-- The calls of `ac_queue_message` and `ac_do` on the session mutex, the
jitter buffer, the decoder and the application, in the order made.
`reconfigure_failed` is the warning of line 160, logged when
`reconfigure_audio_decoder` returned false. -/
inductive Event where
  | mutex_lock
  | mutex_unlock
  | jbuf_write (m : RTPMessage) (ret : Int)
  | jbuf_read (msg : Option RTPMessage) (success : Int)
  | rtp_free_msg (m : RTPMessage)
  | opus_decode (decoder : Nat) (data : Option (List Nat)) (frame_size : Int)
      (decode_fec : Int)
  | reconfigure_failed
  | callback (sample_count channels sampling_rate : Int)
deriving DecidableEq, Repr

/-- What the environment answers while `ac_new` runs: whether `calloc` and
`create_recursive_mutex` succeed, the handle and status of
`opus_decoder_create`, whether the two `calloc` calls of `jbuf_new` succeed,
and the answers to `create_audio_encoder`. -/
structure Creation where
  calloc_ac : Bool
  mutex_created : Bool
  decoder : Nat
  decoder_status : Int
  calloc_q : Bool
  calloc_queue : Bool
  encoder : EncoderCreation
deriving DecidableEq, Repr

/-- The function `ac_new`: `none` is `NULL`. `calloc` zeroes the session;
the assignments of lines 56-90 follow. No statement of `ac_new` assigns
`last_packet_channel_count`. -/
def ac_new (c : Creation) (av friend_id : Nat) (cb : Option Nat) (cb_data : Nat) :
    Option ACSession :=
  if !c.calloc_ac then none
  else if !c.mutex_created then none
  else if c.decoder_status ≠ OPUS_OK then none
  else
    match jbuf_new 3 c.calloc_q c.calloc_queue with
    | none => none
    | some j_buf =>
      match (create_audio_encoder c.encoder 48000 48000 2).1 with
      | none => none
      | some encoder =>
        some { encoder := encoder,
               last_encoding_sampling_rate := 48000,
               last_encoding_channel_count := 2,
               last_encoding_bitrate := 48000,
               decoder := c.decoder,
               last_packet_channel_count := 0,
               last_packet_sampling_rate := 48000,
               last_packet_frame_duration := 120,
               last_decoding_sampling_rate := 48000,
               last_decoding_channel_count := 2,
               last_decoder_reconfiguration := 0,
               j_buf := j_buf,
               av := av,
               friend_id := friend_id,
               acb_first := cb,
               acb_second := cb_data }

/-- The outcome of `ac_queue_message` and of `ac_do`: the session afterwards,
the calls made and whether the run reached a division by zero (it stops
there). -/
structure DoResult where
  ac : ACSession
  trace : List Event
  fault : Bool
deriving DecidableEq, Repr

/-- The function `ac_queue_message` for a session and a message that exist. -/
def ac_queue_message (ac : ACSession) (msg : RTPMessage) : DoResult :=
  { ac := { ac with j_buf := (jbuf_write ac.j_buf msg).q },
    trace := [Event.mutex_lock, Event.jbuf_write msg (jbuf_write ac.j_buf msg).ret] ++
      (jbuf_write ac.j_buf msg).freed.map Event.rtp_free_msg ++ [Event.mutex_unlock] ++
      (if (jbuf_write ac.j_buf msg).ret = -1 then [Event.rtp_free_msg msg] else []),
    fault := false }

/-! ## ac_do (lines 116-181) -/

/-- What the environment answers during one call of `ac_do`:
`opus_packet_get_nb_channels` as a function of the bytes it is given and, for
the loop iteration `i`, the two readings of `current_time_monotonic`, the
handle and status of `opus_decoder_create`, and the value `opus_decode`
returns. -/
structure World where
  nb_channels : List Nat → Int
  now_check : Nat → Nat
  now_set : Nat → Nat
  new_dec : Nat → Nat
  create_status : Nat → Int
  decode_rc : Nat → Int

/-- Lines 169-178 of `ac_do`: what follows the `opus_decode` call that
returned `rc`. -/
def ac_do_finish (ac : ACSession) (trace : List Event) (rc : Int) : DoResult :=
  if rc < 0 then { ac := ac, trace := trace, fault := false }
  else
    match ac.acb_first with
    | none => { ac := ac, trace := trace, fault := false }
    | some _ =>
      match frame_duration rc ac.last_packet_sampling_rate ac.last_packet_channel_count with
      | none => { ac := ac, trace := trace, fault := true }
      | some d =>
        { ac := { ac with last_packet_frame_duration := d },
          trace := trace ++ [Event.callback (rc * ac.last_packet_channel_count)
            ac.last_packet_channel_count ac.last_packet_sampling_rate],
          fault := false }

/-- Lines 131-135 of `ac_do`: the concealment call after a loss result. -/
def ac_do_conceal (w : World) (i : Nat) (ac : ACSession) (trace : List Event) : DoResult :=
  match plc_frame_size ac.last_packet_sampling_rate ac.last_packet_frame_duration
      ac.last_packet_channel_count with
  | none => { ac := ac, trace := trace, fault := true }
  | some size =>
    ac_do_finish ac (trace ++ [Event.opus_decode ac.decoder none size 1]) (w.decode_rc i)

/-- Lines 150-159 of `ac_do`: the sampling rate and the channel count of the
message are stored in the session and `reconfigure_audio_decoder` is called
with them (its `channels` parameter is an `int8_t`). -/
def ac_do_reconfigure (w : World) (i : Nat) (ac : ACSession) (msg : RTPMessage) :
    DecoderReconf :=
  reconfigure_audio_decoder
    { ac with last_packet_sampling_rate := packet_sampling_rate msg.data,
              last_packet_channel_count := w.nb_channels (msg.data.drop 4) }
    (packet_sampling_rate msg.data) (to_int8 (w.nb_channels (msg.data.drop 4)))
    (w.now_check i) (w.now_set i) (w.new_dec i) (w.create_status i)

/-- The loop of `ac_do` (lines 128-179), entered with the mutex locked, with
a bound on the number of iterations (`none` when it is reached). An iteration
calls `jbuf_read`; when a message or a loss comes back it unlocks the mutex
and conceals or decodes, then returns, except that a message whose decoder
reconfiguration fails is freed and `continue` starts the next iteration. When
nothing comes back the loop ends and the mutex is unlocked (line 180). -/
def ac_do_loop (w : World) : Nat → Nat → ACSession → List Event → Option DoResult
  | 0, _, _, _ => none
  | fuel + 1, i, ac, trace =>
    match (jbuf_read ac.j_buf).msg with
    | none =>
      if (jbuf_read ac.j_buf).success = 2 then
        some (ac_do_conceal w i { ac with j_buf := (jbuf_read ac.j_buf).q }
          (trace ++ [Event.jbuf_read none (jbuf_read ac.j_buf).success, Event.mutex_unlock]))
      else
        some { ac := { ac with j_buf := (jbuf_read ac.j_buf).q },
               trace := trace ++ [Event.jbuf_read none (jbuf_read ac.j_buf).success,
                                  Event.mutex_unlock],
               fault := false }
    | some msg =>
      if (jbuf_read ac.j_buf).success = 2 then
        some (ac_do_conceal w i { ac with j_buf := (jbuf_read ac.j_buf).q }
          (trace ++ [Event.jbuf_read (some msg) (jbuf_read ac.j_buf).success,
                     Event.mutex_unlock]))
      else if (ac_do_reconfigure w i { ac with j_buf := (jbuf_read ac.j_buf).q } msg).ret then
        some (ac_do_finish
          (ac_do_reconfigure w i { ac with j_buf := (jbuf_read ac.j_buf).q } msg).ac
          (trace ++ [Event.jbuf_read (some msg) (jbuf_read ac.j_buf).success,
                     Event.mutex_unlock,
                     Event.opus_decode
                       (ac_do_reconfigure w i
                         { ac with j_buf := (jbuf_read ac.j_buf).q } msg).ac.decoder
                       (some (msg.data.drop 4)) decode_frame_size 0,
                     Event.rtp_free_msg msg])
          (w.decode_rc i))
      else
        ac_do_loop w fuel (i + 1)
          (ac_do_reconfigure w i { ac with j_buf := (jbuf_read ac.j_buf).q } msg).ac
          (trace ++ [Event.jbuf_read (some msg) (jbuf_read ac.j_buf).success,
                     Event.mutex_unlock, Event.reconfigure_failed, Event.rtp_free_msg msg])

/-- The function `ac_do` for a session that exists: `pthread_mutex_lock`, then
the loop. Every iteration but the last takes a message out of the queue, so
one iteration more than the queue has slots is enough. -/
def ac_do (w : World) (ac : ACSession) : Option DoResult :=
  ac_do_loop w (ac.j_buf.queue.length + 1) 0 ac [Event.mutex_lock]

/-- The hold counter of the session mutex along a trace, from the value
`held`: `none` as soon as `jbuf_read` or `jbuf_write` is called, or the mutex
is unlocked, while the counter is 0; the final counter otherwise. -/
def mutex_discipline : Nat → List Event → Option Nat
  | held, [] => some held
  | held, Event.mutex_lock :: rest => mutex_discipline (held + 1) rest
  | held, Event.mutex_unlock :: rest =>
    if held = 0 then none else mutex_discipline (held - 1) rest
  | held, Event.jbuf_read _ _ :: rest =>
    if held = 0 then none else mutex_discipline held rest
  | held, Event.jbuf_write _ _ :: rest =>
    if held = 0 then none else mutex_discipline held rest
  | held, _ :: rest => mutex_discipline held rest

/-- Whether an event is a `jbuf_read` call. -/
def Event.is_jbuf_read : Event → Bool
  | Event.jbuf_read _ _ => true
  | _ => false

/-- Whether an event is an `opus_decode` call. -/
def Event.is_opus_decode : Event → Bool
  | Event.opus_decode _ _ _ _ => true
  | _ => false

/-- Whether an event is the report of a failed decoder reconfiguration. -/
def Event.is_reconfigure_failed : Event → Bool
  | Event.reconfigure_failed => true
  | _ => false

/-- The number of `jbuf_read` calls in a trace. -/
def count_reads (trace : List Event) : Nat := trace.countP Event.is_jbuf_read

/-- The number of `opus_decode` calls in a trace. -/
def count_decodes (trace : List Event) : Nat := trace.countP Event.is_opus_decode

/-- The number of messages dropped after a failed decoder reconfiguration. -/
def count_dropped (trace : List Event) : Nat := trace.countP Event.is_reconfigure_failed

/-- The number of occupied slots of a buffer. -/
def JitterBuffer.occupied (q : JitterBuffer) : Nat := q.queue.countP Option.isSome

/-! ## Scenario states -/

/-- The buffer of `ac_new`: `jbuf_new(3)` with both allocations succeeding. -/
def buffer_new3 : JitterBuffer := empty_buffer 16 3 0

/-- The empty buffer of capacity 3 with `bottom = top = 10`. -/
def buffer_at10 : JitterBuffer := empty_buffer 16 3 10

/-- The empty buffer of capacity 3 with `bottom = top = 5`. -/
def buffer_at5 : JitterBuffer := empty_buffer 16 3 5

/-- A session as `ac_new` leaves it (lines 56-90) with decoder handle 1,
encoder handle 2 and no callback registered. -/
def session_48k : ACSession :=
  { encoder := 2, last_encoding_sampling_rate := 48000, last_encoding_channel_count := 2,
    last_encoding_bitrate := 48000, decoder := 1, last_packet_channel_count := 0,
    last_packet_sampling_rate := 48000, last_packet_frame_duration := 120,
    last_decoding_sampling_rate := 48000, last_decoding_channel_count := 2,
    last_decoder_reconfiguration := 0, j_buf := buffer_new3, av := 0, friend_id := 0,
    acb_first := none, acb_second := 0 }

/-- Answers with which `ac_new` succeeds: decoder handle 1, encoder handle 2. -/
def creation_ok : Creation :=
  { calloc_ac := true, mutex_created := true, decoder := 1, decoder_status := 0,
    calloc_q := true, calloc_queue := true,
    encoder := { handle := 2, create_status := 0, bitrate_status := 0,
                 complexity_status := 0 } }

/-- The session `ac_new` returns with `creation_ok` and callback 9. -/
def session_new : ACSession := { session_48k with acb_first := some 9 }

/-- An environment in which `opus_decoder_create` fails with status -1 (as it
does for a sampling rate Opus does not support); the clock reads 1000, the
channel count of a packet is 2 when bit 2 of its first byte is set and 1
otherwise, and `opus_decode` returns 960. -/
def world_create_fails : World :=
  { nb_channels := fun d => if 4 ≤ d.getD 0 0 % 8 then 2 else 1,
    now_check := fun _ => 1000, now_set := fun _ => 1000, new_dec := fun i => 10 + i,
    create_status := fun _ => -1, decode_rc := fun _ => 960 }

/-- A message with sequence number `s` whose payload starts with the sampling
rate 44100 (bytes 0, 0, 172, 68) followed by one byte of audio. -/
def packet_44100 (s : Nat) : RTPMessage := { sequnum := s, data := [0, 0, 172, 68, 0] }

/-! # Theorems -/

/-! ## Auxiliary facts -/

theorem to_uint16_cast (i : Int) : ((to_uint16 i : Nat) : Int) = i % 65536 :=
  Int.toNat_of_nonneg (Int.emod_nonneg i (by decide))

theorem to_uint32_cast (i : Int) : ((to_uint32 i : Nat) : Int) = i % 4294967296 :=
  Int.toNat_of_nonneg (Int.emod_nonneg i (by decide))

theorem to_uint64_cast (i : Int) : ((to_uint64 i : Nat) : Int) = i % 18446744073709551616 :=
  Int.toNat_of_nonneg (Int.emod_nonneg i (by decide))

theorem jbuf_clear_loop_frame (fuel : Nat) : ∀ (q : JitterBuffer) (freed : List RTPMessage),
    (jbuf_clear_loop fuel q freed).1.size = q.size ∧
    (jbuf_clear_loop fuel q freed).1.capacity = q.capacity ∧
    (jbuf_clear_loop fuel q freed).1.top = q.top ∧
    (jbuf_clear_loop fuel q freed).1.queue.length = q.queue.length := by
  induction fuel with
  | zero => intro q freed; simp [jbuf_clear_loop]
  | succ k ih =>
    intro q freed
    unfold jbuf_clear_loop
    by_cases h : q.bottom = q.top
    · simp [h]
    · simp only [ne_eq, h, not_false_eq_true, if_true]
      cases hs : q.slot (q.bottom % q.size) with
      | none =>
        have h1 := ih { q with bottom := to_uint16 (q.bottom + 1) } freed
        simpa using h1
      | some m =>
        have h1 := ih { q with queue := q.queue.set (q.bottom % q.size) none,
                               bottom := to_uint16 (q.bottom + 1) } (freed ++ [m])
        simpa using h1

theorem jbuf_clear_frame (q : JitterBuffer) :
    (jbuf_clear q).1.size = q.size ∧ (jbuf_clear q).1.capacity = q.capacity ∧
    (jbuf_clear q).1.top = q.top ∧ (jbuf_clear q).1.queue.length = q.queue.length :=
  jbuf_clear_loop_frame 65536 q []

/-- The loop of `jbuf_clear` ends: with enough iterations allowed it stops
with `bottom = top`. -/
theorem jbuf_clear_loop_reaches_top (fuel : Nat) :
    ∀ (q : JitterBuffer) (freed : List RTPMessage), q.bottom < 65536 → q.top < 65536 →
      (q.top + 65536 - q.bottom) % 65536 ≤ fuel →
      (jbuf_clear_loop fuel q freed).1.bottom = q.top := by
  induction fuel with
  | zero =>
    intro q freed hb ht hd
    simp only [jbuf_clear_loop]
    omega
  | succ k ih =>
    intro q freed hb ht hd
    have e : to_uint16 ((q.bottom : Int) + 1) = (q.bottom + 1) % 65536 := by
      have := to_uint16_cast ((q.bottom : Int) + 1); omega
    unfold jbuf_clear_loop
    by_cases h : q.bottom = q.top
    · simp [h]
    · simp only [ne_eq, h, not_false_eq_true, if_true]
      cases hs : q.slot (q.bottom % q.size) with
      | none =>
        have h1 := ih { q with bottom := to_uint16 (q.bottom + 1) } freed
          (by dsimp only; rw [e]; omega) ht (by dsimp only; rw [e]; omega)
        simpa using h1
      | some m =>
        have h1 := ih { q with queue := q.queue.set (q.bottom % q.size) none,
                               bottom := to_uint16 (q.bottom + 1) } (freed ++ [m])
          (by dsimp only; rw [e]; omega) ht (by dsimp only; rw [e]; omega)
        simpa using h1

/-- The function `jbuf_clear` returns with `bottom = top`: 65536 iterations are
enough for every pair of 16-bit counters. -/
theorem jbuf_clear_reaches_top (q : JitterBuffer) (hwf : q.WF) :
    (jbuf_clear q).1.bottom = q.top :=
  jbuf_clear_loop_reaches_top 65536 q [] hwf.2.2.2.2.1 hwf.2.2.2.2.2 (by omega)

theorem getD_set_self (l : List (Option RTPMessage)) (i : Nat) (v : Option RTPMessage)
    (h : i < l.length) : (l.set i v).getD i none = v := by
  simp [List.getD, h]

theorem getD_set_other (l : List (Option RTPMessage)) (i j : Nat) (v : Option RTPMessage)
    (h : i ≠ j) : (l.set i v).getD j none = l.getD j none := by
  simp [List.getD, List.getElem?_set_ne h]

/-- When the sequence number is at or above `bottom` and at most `size` above
it, `jbuf_write` does not enter the clearing branch. -/
theorem jbuf_write_window (q : JitterBuffer) (m : RTPMessage) (hwf : q.WF)
    (hm : m.sequnum < 65536) (hlo : q.bottom ≤ m.sequnum)
    (hhi : m.sequnum ≤ q.bottom + q.size) :
    jbuf_write q m =
      if (q.slot (m.sequnum % q.size)).isSome then { ret := -1, q := q, freed := [] }
      else if q.top ≤ m.sequnum then
        { ret := 0,
          q := { q with queue := q.queue.set (m.sequnum % q.size) (some m),
                        top := (m.sequnum + 1) % 65536 },
          freed := [] }
      else
        { ret := 0, q := { q with queue := q.queue.set (m.sequnum % q.size) (some m) },
          freed := [] } := by
  obtain ⟨_, _, hs, _, hb, ht⟩ := hwf
  have h0 : to_uint16 (m.sequnum : Int) = m.sequnum := by
    have := to_uint16_cast (m.sequnum : Int); omega
  have h1 : ¬ to_uint32 ((m.sequnum : Int) - (q.bottom : Int)) > q.size := by
    have := to_uint32_cast ((m.sequnum : Int) - (q.bottom : Int)); omega
  have h2 : to_uint16 ((m.sequnum : Int) + 1) = (m.sequnum + 1) % 65536 := by
    have := to_uint16_cast ((m.sequnum : Int) + 1); omega
  have h3 : ((m.sequnum : Int) - (q.bottom : Int) ≥ (q.top : Int) - (q.bottom : Int)) ↔
      q.top ≤ m.sequnum := by omega
  simp only [jbuf_write, h0, h1, h2, h3, if_false]

/-- When the sequence number is below `bottom` or more than `size` above it,
`jbuf_write` clears the buffer and restarts it around the new message (`size`
is at most 2^31, the largest value the sizing loop of `jbuf_new` returns). -/
theorem jbuf_write_reset (q : JitterBuffer) (m : RTPMessage) (hwf : q.WF)
    (hsz : q.size ≤ 2147483648)
    (hm : m.sequnum < 65536) (hfar : m.sequnum < q.bottom ∨ q.bottom + q.size < m.sequnum) :
    jbuf_write q m =
      { ret := 0,
        q := { (jbuf_clear q).1 with
                 bottom := to_uint16 ((m.sequnum : Int) - (q.capacity : Int)),
                 queue := (jbuf_clear q).1.queue.set (m.sequnum % q.size) (some m),
                 top := (m.sequnum + 1) % 65536 },
        freed := (jbuf_clear q).2 } := by
  obtain ⟨_, _, hs, hc, hb, ht⟩ := hwf
  have h0 : to_uint16 (m.sequnum : Int) = m.sequnum := by
    have := to_uint16_cast (m.sequnum : Int); omega
  have h1 : to_uint32 ((m.sequnum : Int) - (q.bottom : Int)) > q.size := by
    have := to_uint32_cast ((m.sequnum : Int) - (q.bottom : Int)); omega
  have h2 : to_uint16 ((m.sequnum : Int) + 1) = (m.sequnum + 1) % 65536 := by
    have := to_uint16_cast ((m.sequnum : Int) + 1); omega
  have h3 : to_uint16 (to_uint32 ((m.sequnum : Int) - (q.capacity : Int))) =
      to_uint16 ((m.sequnum : Int) - (q.capacity : Int)) := by
    have e1 := to_uint32_cast ((m.sequnum : Int) - (q.capacity : Int))
    have e2 := to_uint16_cast ((to_uint32 ((m.sequnum : Int) - (q.capacity : Int)) : Nat) : Int)
    have e3 := to_uint16_cast ((m.sequnum : Int) - (q.capacity : Int))
    omega
  simp only [jbuf_write, h0, h1, h2, (jbuf_clear_frame q).2.1, h3, if_true]

theorem reachable_write_list (c : Nat) (ms : List RTPMessage) :
    ∀ q : JitterBuffer, Reachable c q → (∀ m ∈ ms, m.sequnum < 65536) →
      Reachable c (jbuf_write_list q ms).1 := by
  induction ms with
  | nil => intro q h _; exact h
  | cons m ms ih =>
    intro q h hm
    exact ih _ (Reachable.write q m h (hm m (List.mem_cons_self m ms)))
      (fun x hx => hm x (List.mem_cons_of_mem m hx))

theorem reachable_read_times (c : Nat) (n : Nat) :
    ∀ q : JitterBuffer, Reachable c q → Reachable c (jbuf_read_times n q).1 := by
  induction n with
  | zero => intro q h; exact h
  | succ n ih => intro q h; exact ih _ (Reachable.read q h)

theorem reachable_buffer_new3 : Reachable 3 buffer_new3 :=
  Reachable.new buffer_new3 true true (by decide) (by decide)

theorem reachable_buffer_at10 : Reachable 3 buffer_at10 := by
  have h : (jbuf_read_times 10 (jbuf_write_list buffer_new3
      [frame 0, frame 1, frame 2, frame 3, frame 4, frame 5, frame 6, frame 7, frame 8,
       frame 9]).1).1 = buffer_at10 := by decide
  rw [← h]
  exact reachable_read_times 3 _ _
    (reachable_write_list 3 _ _ reachable_buffer_new3 (by decide))

theorem reachable_buffer_at5 : Reachable 3 buffer_at5 := by
  have h : (jbuf_read_times 5 (jbuf_write_list buffer_new3
      [frame 0, frame 1, frame 2, frame 3, frame 4]).1).1 = buffer_at5 := by decide
  rw [← h]
  exact reachable_read_times 3 _ _
    (reachable_write_list 3 _ _ reachable_buffer_new3 (by decide))

theorem mod_ne_of_window (b n size k1 k2 : Nat) (hn : n ≤ size)
    (h1 : b ≤ k1) (h1' : k1 < b + n) (h2 : b ≤ k2) (h2' : k2 < b + n) (hne : k1 ≠ k2) :
    k1 % size ≠ k2 % size := by
  intro h
  rcases Nat.lt_or_gt_of_ne hne with hlt | hlt
  · have h0 : (k2 - k1) % size = 0 := Nat.sub_mod_eq_zero_of_mod_eq h.symm
    have := Nat.le_of_dvd (by omega) (Nat.dvd_of_mod_eq_zero h0)
    omega
  · have h0 : (k1 - k2) % size = 0 := Nat.sub_mod_eq_zero_of_mod_eq h
    have := Nat.le_of_dvd (by omega) (Nat.dvd_of_mod_eq_zero h0)
    omega

/-- A write inside the window into an empty slot stores the message and
raises `top` to one past its sequence number. -/
theorem jbuf_write_store (q : JitterBuffer) (m : RTPMessage) (hwf : q.WF)
    (hlo : q.bottom ≤ m.sequnum) (hhi : m.sequnum ≤ q.bottom + q.size)
    (hm : m.sequnum < 65535) (hfree : q.slot (m.sequnum % q.size) = none) :
    jbuf_write q m =
      { ret := 0,
        q := { q with queue := q.queue.set (m.sequnum % q.size) (some m),
                      top := max q.top (m.sequnum + 1) },
        freed := [] } := by
  rw [jbuf_write_window q m hwf (by omega) hlo hhi]
  simp only [hfree, Option.isSome_none, Bool.false_eq_true, if_false]
  have e : (m.sequnum + 1) % 65536 = m.sequnum + 1 := by omega
  by_cases ht : q.top ≤ m.sequnum
  · rw [if_pos ht, e, Nat.max_eq_right (by omega)]
  · rw [if_neg ht, Nat.max_eq_left (by omega)]

theorem jbuf_write_list_fill (b n : Nat) (ms : List RTPMessage) :
    ∀ q : JitterBuffer, q.WF → q.bottom = b → n ≤ q.size → b + n ≤ 65535 → q.top ≤ b + n →
      (∀ m ∈ ms, b ≤ m.sequnum ∧ m.sequnum < b + n) →
      (ms.map RTPMessage.sequnum).Nodup →
      (∀ m ∈ ms, q.slot (m.sequnum % q.size) = none) →
      (jbuf_write_list q ms).1.WF ∧ (jbuf_write_list q ms).1.bottom = b ∧
      (jbuf_write_list q ms).1.size = q.size ∧
      (jbuf_write_list q ms).1.capacity = q.capacity ∧
      q.top ≤ (jbuf_write_list q ms).1.top ∧ (jbuf_write_list q ms).1.top ≤ b + n ∧
      (∀ m ∈ ms, m.sequnum < (jbuf_write_list q ms).1.top) ∧
      (jbuf_write_list q ms).2 = List.replicate ms.length 0 ∧
      (∀ m ∈ ms, (jbuf_write_list q ms).1.slot (m.sequnum % q.size) = some m) ∧
      (∀ k, b ≤ k → k < b + n → (∀ m ∈ ms, m.sequnum ≠ k) →
        (jbuf_write_list q ms).1.slot (k % q.size) = q.slot (k % q.size)) := by
  induction ms with
  | nil =>
    intro q hwf hb _ _ ht _ _ _
    simp [jbuf_write_list, hwf, hb, ht]
  | cons m ms ih =>
    intro q hwf hb hn hw ht hrange hnd hfree
    have hm := hrange m (List.mem_cons_self m ms)
    have hmfree := hfree m (List.mem_cons_self m ms)
    have hst := jbuf_write_store q m hwf (by omega) (by omega) (by omega) hmfree
    rw [List.map_cons, List.nodup_cons] at hnd
    have hlen : m.sequnum % q.size < q.queue.length := by
      rw [hwf.1]; exact Nat.mod_lt _ hwf.2.1
    have hwf1 : (jbuf_write q m).q.WF := by
      rw [hst]
      obtain ⟨h1, h2, h3, h4, h5, h6⟩ := hwf
      refine ⟨?_, h2, h3, h4, h5, ?_⟩
      · simpa using h1
      · show max q.top (m.sequnum + 1) < 65536
        omega
    have hne : ∀ x ∈ ms, x.sequnum ≠ m.sequnum := by
      intro x hx hxe
      exact hnd.1 (hxe ▸ List.mem_map_of_mem _ hx)
    have hq1size : (jbuf_write q m).q.size = q.size := by rw [hst]
    have hslot1 : ∀ k, b ≤ k → k < b + n → k ≠ m.sequnum →
        (jbuf_write q m).q.slot (k % q.size) = q.slot (k % q.size) := by
      intro k hk1 hk2 hk3
      rw [hst]
      exact getD_set_other _ _ _ _
        (mod_ne_of_window b n q.size _ _ hn hm.1 hm.2 hk1 hk2 (Ne.symm hk3))
    have hih := ih (jbuf_write q m).q hwf1 (by rw [hst]; exact hb) (by rw [hq1size]; exact hn) hw
      (by rw [hst]; show max q.top (m.sequnum + 1) ≤ b + n; omega)
      (fun x hx => hrange x (List.mem_cons_of_mem m hx)) hnd.2
      (by
        intro x hx
        have hxr := hrange x (List.mem_cons_of_mem m hx)
        rw [hq1size, hslot1 x.sequnum hxr.1 hxr.2 (hne x hx)]
        exact hfree x (List.mem_cons_of_mem m hx))
    obtain ⟨i1, i2, i3, i4, i5, i6, i7, i8, i9, i10⟩ := hih
    have htop1 : (jbuf_write q m).q.top = max q.top (m.sequnum + 1) := by rw [hst]
    have hcap1 : (jbuf_write q m).q.capacity = q.capacity := by rw [hst]
    have hret1 : (jbuf_write q m).ret = 0 := by rw [hst]
    rw [hq1size] at i9 i10
    refine ⟨i1, i2, by rw [← hq1size]; exact i3, by rw [← hcap1]; exact i4, ?_, i6, ?_, ?_, ?_, ?_⟩
    · show q.top ≤ (jbuf_write_list (jbuf_write q m).q ms).1.top
      omega
    · intro x hx
      show x.sequnum < (jbuf_write_list (jbuf_write q m).q ms).1.top
      rcases List.mem_cons.1 hx with rfl | hx
      · omega
      · exact i7 x hx
    · show (jbuf_write q m).ret :: (jbuf_write_list (jbuf_write q m).q ms).2 = _
      rw [i8, hret1]; rfl
    · intro x hx
      show (jbuf_write_list (jbuf_write q m).q ms).1.slot (x.sequnum % q.size) = some x
      rcases List.mem_cons.1 hx with rfl | hx
      · rw [i10 x.sequnum hm.1 hm.2 (fun y hy => hne y hy), hst]
        exact getD_set_self _ _ _ hlen
      · exact i9 x hx
    · intro k hk1 hk2 hk3
      show (jbuf_write_list (jbuf_write q m).q ms).1.slot (k % q.size) = _
      rw [i10 k hk1 hk2 (fun y hy => hk3 y (List.mem_cons_of_mem m hy))]
      exact hslot1 k hk1 hk2 (Ne.symm (hk3 m (List.mem_cons_self m ms)))


/-- A read that finds the message for `bottom` in its slot. -/
theorem jbuf_read_hit (q : JitterBuffer) (m : RTPMessage)
    (hne : q.top ≠ q.bottom) (hb : q.bottom < 65535)
    (hslot : q.slot (q.bottom % q.size) = some m) :
    jbuf_read q =
      { msg := some m, success := 1,
        q := { q with queue := q.queue.set (q.bottom % q.size) none,
                      bottom := q.bottom + 1 } } := by
  have h3 : to_uint16 ((q.bottom : Int) + 1) = q.bottom + 1 := by
    have := to_uint16_cast ((q.bottom : Int) + 1); omega
  simp [jbuf_read, hne, hslot, h3]

theorem jbuf_read_times_run (g : Nat → RTPMessage) (n : Nat) :
    ∀ q : JitterBuffer, q.WF → q.top = q.bottom + n → q.top ≤ 65535 → n ≤ q.size →
      (∀ k, q.bottom ≤ k → k < q.top → q.slot (k % q.size) = some (g k)) →
      (jbuf_read_times n q).2 =
        (List.range' q.bottom n).map (fun k => (some (g k), (1 : Int))) ∧
      (jbuf_read_times n q).1.bottom = q.top ∧ (jbuf_read_times n q).1.top = q.top ∧
      (jbuf_read_times n q).1.size = q.size ∧
      (jbuf_read_times n q).1.capacity = q.capacity ∧ (jbuf_read_times n q).1.WF := by
  induction n with
  | zero =>
    intro q hwf ht _ _ _
    simp [jbuf_read_times, hwf, ht]
  | succ n ih =>
    intro q hwf ht hw hn hslots
    have hhit := jbuf_read_hit q (g q.bottom) (by omega) (by omega)
      (hslots q.bottom (le_refl _) (by omega))
    have hwf1 : (jbuf_read q).q.WF := by
      rw [hhit]
      obtain ⟨h1, h2, h3, h4, h5, h6⟩ := hwf
      refine ⟨?_, h2, h3, h4, ?_, h6⟩
      · simpa using h1
      · show q.bottom + 1 < 65536
        omega
    have hb1 : (jbuf_read q).q.bottom = q.bottom + 1 := by rw [hhit]
    have ht1 : (jbuf_read q).q.top = q.top := by rw [hhit]
    have hs1 : (jbuf_read q).q.size = q.size := by rw [hhit]
    have hc1 : (jbuf_read q).q.capacity = q.capacity := by rw [hhit]
    have hih := ih (jbuf_read q).q hwf1 (by rw [hb1, ht1]; omega) (by rw [ht1]; exact hw)
      (by rw [hs1]; omega)
      (by
        intro k hk1 hk2
        rw [hb1] at hk1
        rw [ht1] at hk2
        rw [hs1, ← hslots k (by omega) hk2, hhit]
        exact getD_set_other _ _ _ _
          (mod_ne_of_window q.bottom (n + 1) q.size _ _ hn (le_refl _) (by omega)
            (by omega) (by omega) (by omega)))
    obtain ⟨i1, i2, i3, i4, i5, i6⟩ := hih
    refine ⟨?_, by rw [← ht1]; exact i2, by rw [← ht1]; exact i3, by rw [← hs1]; exact i4,
      by rw [← hc1]; exact i5, i6⟩
    show ((jbuf_read q).msg, (jbuf_read q).success) :: (jbuf_read_times n (jbuf_read q).q).2 = _
    rw [i1, hb1, hhit, List.range'_succ, List.map_cons]


theorem message_of_spec (ms : List RTPMessage) (k : Nat)
    (h : k ∈ ms.map RTPMessage.sequnum) :
    message_of ms k ∈ ms ∧ (message_of ms k).sequnum = k := by
  obtain ⟨m, hm, hmk⟩ := List.mem_map.1 h
  cases hf : ms.find? (fun m => decide (m.sequnum = k)) with
  | none =>
    have := List.find?_eq_none.1 hf m hm
    simp [hmk] at this
  | some x =>
    have h1 := List.find?_some hf
    have h2 := List.mem_of_find?_eq_some hf
    simp only [message_of, hf, Option.getD_some]
    exact ⟨h2, by simpa using h1⟩

/-- Writes of a gap-free run of sequence numbers `b, ..., b+n-1` (`n <= size`,
no 16-bit wrap) into an empty buffer with `bottom = top = b`, in any order,
followed by `n` reads. -/
theorem jbuf_gap_free_run (q : JitterBuffer) (ms : List RTPMessage) (hwf : q.WF)
    (hempty : ∀ i, q.slot i = none) (hbt : q.top = q.bottom)
    (hperm : (ms.map RTPMessage.sequnum).Perm (List.range' q.bottom ms.length))
    (hn : ms.length ≤ q.size) (hnowrap : q.bottom + ms.length ≤ 65535) :
    (jbuf_write_list q ms).2 = List.replicate ms.length 0 ∧
    (jbuf_write_list q ms).1.bottom = q.bottom ∧
    (jbuf_write_list q ms).1.top = q.bottom + ms.length ∧
    (jbuf_read_times ms.length (jbuf_write_list q ms).1).2 =
      (List.range' q.bottom ms.length).map (fun k => (some (message_of ms k), (1 : Int))) ∧
    (jbuf_read_times ms.length (jbuf_write_list q ms).1).1.bottom = q.bottom + ms.length ∧
    (jbuf_read_times ms.length (jbuf_write_list q ms).1).1.top = q.bottom + ms.length := by
  have hrange : ∀ m ∈ ms, q.bottom ≤ m.sequnum ∧ m.sequnum < q.bottom + ms.length := by
    intro m hm
    have := hperm.mem_iff.1 (List.mem_map_of_mem RTPMessage.sequnum hm)
    simpa [List.mem_range'_1] using this
  have hnd : (ms.map RTPMessage.sequnum).Nodup := hperm.nodup_iff.2 (List.nodup_range' _ _)
  obtain ⟨w1, w2, w3, w4, w5, w6, w7, w8, w9, _⟩ :=
    jbuf_write_list_fill q.bottom ms.length ms q hwf rfl hn hnowrap (by omega) hrange hnd
      (fun m _ => hempty _)
  have hin : ∀ k, q.bottom ≤ k → k < q.bottom + ms.length → k ∈ ms.map RTPMessage.sequnum := by
    intro k h1 h2
    exact hperm.mem_iff.2 (by simp [List.mem_range'_1, h1, h2])
  have htop : (jbuf_write_list q ms).1.top = q.bottom + ms.length := by
    by_cases h0 : ms.length = 0
    · omega
    · obtain ⟨m, hm, hmk⟩ := List.mem_map.1
        (hin (q.bottom + ms.length - 1) (by omega) (by omega))
      have := w7 m hm
      omega
  obtain ⟨r1, r2, r3, _, _, _⟩ :=
    jbuf_read_times_run (message_of ms) ms.length (jbuf_write_list q ms).1 w1
      (by rw [htop, w2]) (by rw [htop]; exact hnowrap) (by rw [w3]; exact hn)
      (by
        intro k h1 h2
        rw [w2] at h1
        rw [htop] at h2
        obtain ⟨g1, g2⟩ := message_of_spec ms k (hin k h1 h2)
        have := w9 _ g1
        rw [g2] at this
        rw [w3]; exact this)
  rw [w2] at r1
  rw [htop] at r2 r3
  exact ⟨w8, w2, htop, r1, r2, r3⟩


theorem returned_messages_run (ms : List RTPMessage) (l : List Nat) :
    returned_messages (l.map (fun k => (some (message_of ms k), (1 : Int)))) =
      l.map (message_of ms) := by
  induction l with
  | nil => rfl
  | cons a l ih => simp [returned_messages, List.filterMap_cons] at ih ⊢; exact ih

theorem to_uint16_lt (i : Int) : to_uint16 i < 65536 := by
  have := to_uint16_cast i; omega

theorem to_uint32_lt (i : Int) : to_uint32 i < 4294967296 := by
  have := to_uint32_cast i; omega

theorem jbuf_new_loop_some (c : Nat) : ∀ (fuel sz r : Nat),
    jbuf_new_loop fuel c sz = some r → sz < 4294967296 →
    to_uint32 ((c : Int) * 4) < r ∧ r < 4294967296 := by
  intro fuel
  induction fuel with
  | zero => intro sz r h; simp [jbuf_new_loop] at h
  | succ k ih =>
    intro sz r h hsz
    unfold jbuf_new_loop at h
    split at h
    · exact ih _ r h (to_uint32_lt _)
    · rename_i hgt
      simp only [Option.some.injEq] at h
      subst h
      omega

theorem jbuf_new_some (c : Nat) (a b : Bool) (q : JitterBuffer)
    (h : jbuf_new c a b = some q) :
    q.queue = List.replicate q.size none ∧ q.capacity = c ∧ q.bottom = 0 ∧ q.top = 0 ∧
    to_uint32 ((c : Int) * 4) < q.size ∧ q.size < 4294967296 := by
  unfold jbuf_new at h
  cases hl : jbuf_new_loop 64 c 1 with
  | none => simp [hl] at h
  | some size =>
    rw [hl] at h
    have hs := jbuf_new_loop_some c 64 1 size hl (by decide)
    cases a <;> cases b <;> simp at h
    subst h
    exact ⟨rfl, rfl, rfl, rfl, hs.1, hs.2⟩

theorem jbuf_write_frame (q : JitterBuffer) (m : RTPMessage) (hwf : q.WF) :
    (jbuf_write q m).q.WF ∧ (jbuf_write q m).q.size = q.size ∧
    (jbuf_write q m).q.capacity = q.capacity := by
  obtain ⟨h1, h2, h3, h4, h5, h6⟩ := hwf
  obtain ⟨c1, c2, c3, c4⟩ := jbuf_clear_frame q
  unfold jbuf_write
  simp only
  split
  · refine ⟨⟨?_, ?_, ?_, ?_, ?_, ?_⟩, c1, c2⟩ <;> dsimp only
    · simp [c4, c1, h1]
    · omega
    · omega
    · omega
    · exact to_uint16_lt _
    · exact to_uint16_lt _
  · split
    · exact ⟨⟨h1, h2, h3, h4, h5, h6⟩, rfl, rfl⟩
    · split
      · refine ⟨⟨?_, h2, h3, h4, h5, ?_⟩, rfl, rfl⟩ <;> dsimp only
        · simpa using h1
        · exact to_uint16_lt _
      · exact ⟨⟨by simpa using h1, h2, h3, h4, h5, h6⟩, rfl, rfl⟩

/-- What `jbuf_read` does to the counters: either nothing, or `bottom`, which
differs from `top`, is incremented. -/
theorem jbuf_read_counters (q : JitterBuffer) (hwf : q.WF) :
    (jbuf_read q).q.WF ∧ (jbuf_read q).q.size = q.size ∧
    (jbuf_read q).q.capacity = q.capacity ∧ (jbuf_read q).q.top = q.top ∧
    ((jbuf_read q).q.bottom = q.bottom ∨
      (q.top ≠ q.bottom ∧ (jbuf_read q).q.bottom = (q.bottom + 1) % 65536)) := by
  obtain ⟨h1, h2, h3, h4, h5, h6⟩ := hwf
  have e : to_uint16 ((q.bottom : Int) + 1) = (q.bottom + 1) % 65536 := by
    have := to_uint16_cast ((q.bottom : Int) + 1); omega
  unfold jbuf_read
  split
  · exact ⟨⟨h1, h2, h3, h4, h5, h6⟩, rfl, rfl, rfl, Or.inl rfl⟩
  · rename_i hne
    split
    · refine ⟨⟨?_, h2, h3, h4, ?_, h6⟩, rfl, rfl, rfl, Or.inr ⟨hne, e⟩⟩ <;> dsimp only
      · simpa using h1
      · exact to_uint16_lt _
    · split
      · refine ⟨⟨h1, h2, h3, h4, ?_, h6⟩, rfl, rfl, rfl, Or.inr ⟨hne, e⟩⟩
        dsimp only
        exact to_uint16_lt _
      · exact ⟨⟨h1, h2, h3, h4, h5, h6⟩, rfl, rfl, rfl, Or.inl rfl⟩

theorem inside_invariant (c : Nat) (q : JitterBuffer) (h : ReachableInside c q) :
    q.WF ∧ q.capacity = c ∧ to_uint32 ((c : Int) * 4) < q.size ∧
    (q.top + 65536 - q.bottom) % 65536 ≤ q.size := by
  induction h with
  | new q a b hc hnew =>
    obtain ⟨n1, n2, n3, n4, n5, n6⟩ := jbuf_new_some c a b q hnew
    refine ⟨⟨?_, by omega, n6, by omega, by omega, by omega⟩, n2, n5, ?_⟩
    · rw [n1]; simp
    · rw [n3, n4]; omega
  | write q m _ hm hne ih =>
    obtain ⟨hwf, hcap, hsz, hdist⟩ := ih
    obtain ⟨f1, f2, f3⟩ := jbuf_write_frame q m hwf
    refine ⟨f1, by rw [f3]; exact hcap, by rw [f2]; exact hsz, ?_⟩
    have hb' := f1.2.2.2.2.1
    have ht' := f1.2.2.2.2.2
    rw [f2]
    by_cases hbig : 65536 ≤ q.size
    · omega
    · by_cases hwin : q.bottom ≤ m.sequnum ∧ m.sequnum ≤ q.bottom + q.size
      · rw [jbuf_write_window q m hwf hm hwin.1 hwin.2]
        obtain ⟨_, _, _, _, hb, ht⟩ := hwf
        split
        · exact hdist
        · split
          · show ((m.sequnum + 1) % 65536 + 65536 - q.bottom) % 65536 ≤ q.size
            omega
          · exact hdist
      · rw [jbuf_write_reset q m hwf (by omega) hm (by omega)]
        show ((m.sequnum + 1) % 65536 + 65536 -
          to_uint16 ((m.sequnum : Int) - (q.capacity : Int))) % 65536 ≤ q.size
        have e1 := to_uint16_cast ((m.sequnum : Int) - (q.capacity : Int))
        have e2 := to_uint32_cast ((c : Int) * 4)
        have := hwf.2.2.2.1
        omega
  | read q _ ih =>
    obtain ⟨hwf, hcap, hsz, hdist⟩ := ih
    obtain ⟨r1, r2, r3, r4, r5⟩ := jbuf_read_counters q hwf
    refine ⟨r1, by rw [r3]; exact hcap, by rw [r2]; exact hsz, ?_⟩
    rw [r2, r4]
    obtain ⟨_, _, _, _, hb, ht⟩ := hwf
    rcases r5 with r5 | ⟨hne, r5⟩
    · rw [r5]; exact hdist
    · rw [r5]; omega

theorem jbuf_new_loop_pow (c : Nat) (hc : 4 * c < 2147483648) :
    ∀ (fuel k : Nat), (k = 0 ∨ 2 ^ (k - 1) ≤ 4 * c) → 33 ≤ fuel + k →
      ∃ k', jbuf_new_loop fuel c (2 ^ k) = some (2 ^ k') ∧ 4 * c < 2 ^ k' ∧
        (k' = 0 ∨ 2 ^ (k' - 1) ≤ 4 * c) := by
  intro fuel
  induction fuel with
  | zero =>
    intro k hk hf
    exfalso
    rcases hk with hk | hk
    · omega
    · have : 2 ^ 31 ≤ 2 ^ (k - 1) := Nat.pow_le_pow_right (by decide) (by omega)
      have e : (2 : Nat) ^ 31 = 2147483648 := by norm_num
      omega
  | succ f ih =>
    intro k hk hf
    have e4 : to_uint32 ((c : Int) * 4) = 4 * c := by
      have := to_uint32_cast ((c : Int) * 4); omega
    unfold jbuf_new_loop
    by_cases hle : 2 ^ k ≤ 4 * c
    · have e2 : to_uint32 (((2 ^ k : Nat) : Int) * 2) = 2 ^ (k + 1) := by
        have := to_uint32_cast (((2 ^ k : Nat) : Int) * 2)
        rw [pow_succ]; omega
      rw [if_pos (by rw [e4]; exact hle), e2]
      exact ih (k + 1) (Or.inr (by simpa using hle)) (by omega)
    · rw [if_neg (by rw [e4]; exact hle)]
      exact ⟨k, rfl, by omega, hk⟩

theorem getD_set_none (l : List (Option RTPMessage)) (i j : Nat)
    (h : l.getD i none = none ∨ i = j) : (l.set j none).getD i none = none := by
  by_cases hij : j = i
  · subst hij
    by_cases hl : j < l.length
    · exact getD_set_self l j none hl
    · have : (l.set j none)[j]? = none :=
        List.getElem?_eq_none (by simpa using hl)
      simp [List.getD, this]
  · rw [getD_set_other l j i none hij]
    rcases h with h | h
    · exact h
    · exact absurd h.symm hij

theorem jbuf_write_list_untouched (b n : Nat) (ms : List RTPMessage) :
    ∀ q : JitterBuffer, q.WF → q.bottom = b → n ≤ q.size → b + n ≤ 65535 → q.top ≤ b + n →
      (∀ m ∈ ms, b ≤ m.sequnum ∧ m.sequnum < b + n) →
      (ms.map RTPMessage.sequnum).Nodup →
      (∀ m ∈ ms, q.slot (m.sequnum % q.size) = none) →
      ∀ i, (∀ m ∈ ms, m.sequnum % q.size ≠ i) →
        (jbuf_write_list q ms).1.slot i = q.slot i := by
  induction ms with
  | nil => intro q _ _ _ _ _ _ _ _ i _; rfl
  | cons m ms ih =>
    intro q hwf hb hn hw ht hrange hnd hfree i hi
    have hm := hrange m (List.mem_cons_self m ms)
    have hst := jbuf_write_store q m hwf (by omega) (by omega) (by omega)
      (hfree m (List.mem_cons_self m ms))
    have hnd1 : ([m].map RTPMessage.sequnum).Nodup := by simp
    obtain ⟨s1, s2, s3, _, _, s6, _, _, _, s10⟩ :=
      jbuf_write_list_fill b n [m] q hwf hb hn hw ht
        (fun x hx => hrange x (by simp at hx; simp [hx])) hnd1
        (fun x hx => hfree x (by simp at hx; simp [hx]))
    rw [List.map_cons, List.nodup_cons] at hnd
    have hne : ∀ x ∈ ms, x.sequnum ≠ m.sequnum := by
      intro x hx hxe
      exact hnd.1 (hxe ▸ List.mem_map_of_mem _ hx)
    have s3' : (jbuf_write q m).q.size = q.size := s3
    have hih := ih (jbuf_write q m).q s1 s2 (by rw [s3']; exact hn) hw s6
      (fun x hx => hrange x (List.mem_cons_of_mem m hx)) hnd.2
      (by
        intro x hx
        have hxr := hrange x (List.mem_cons_of_mem m hx)
        have := s10 x.sequnum hxr.1 hxr.2 (by
          intro y hy; simp at hy; subst hy; exact (hne x hx).symm)
        rw [s3']
        exact this.trans (hfree x (List.mem_cons_of_mem m hx)))
      i (by rw [s3']; exact fun x hx => hi x (List.mem_cons_of_mem m hx))
    show (jbuf_write_list (jbuf_write q m).q ms).1.slot i = q.slot i
    rw [hih, hst]
    exact getD_set_other _ _ _ _ (hi m (List.mem_cons_self m ms))

theorem jbuf_read_times_clears (g : Nat → RTPMessage) (n : Nat) :
    ∀ q : JitterBuffer, q.WF → q.top = q.bottom + n → q.top ≤ 65535 → n ≤ q.size →
      (∀ k, q.bottom ≤ k → k < q.top → q.slot (k % q.size) = some (g k)) →
      ∀ i, (q.slot i = none ∨ ∃ k, q.bottom ≤ k ∧ k < q.top ∧ i = k % q.size) →
        (jbuf_read_times n q).1.slot i = none := by
  induction n with
  | zero =>
    intro q _ ht _ _ _ i hi
    rcases hi with hi | ⟨k, h1, h2, _⟩
    · exact hi
    · omega
  | succ n ih =>
    intro q hwf ht hw hn hslots i hi
    have hhit := jbuf_read_hit q (g q.bottom) (by omega) (by omega)
      (hslots q.bottom (le_refl _) (by omega))
    obtain ⟨r1, r2, r3, r4, r5⟩ := jbuf_read_counters q hwf
    have hb1 : (jbuf_read q).q.bottom = q.bottom + 1 := by rw [hhit]
    show (jbuf_read_times n (jbuf_read q).q).1.slot i = none
    apply ih (jbuf_read q).q r1 (by rw [hb1, r4]; omega) (by rw [r4]; exact hw)
      (by rw [r2]; omega)
    · intro k hk1 hk2
      rw [hb1] at hk1
      rw [r4] at hk2
      rw [r2, ← hslots k (by omega) hk2, hhit]
      exact getD_set_other _ _ _ _
        (mod_ne_of_window q.bottom (n + 1) q.size _ _ hn (le_refl _) (by omega)
          (by omega) (by omega) (by omega))
    · rw [hb1, r4, r2]
      rcases hi with hi | ⟨k, h1, h2, h3⟩
      · left
        rw [hhit]
        exact getD_set_none _ _ _ (Or.inl hi)
      · by_cases hk : k = q.bottom
        · left
          rw [hhit]
          exact getD_set_none _ _ _ (Or.inr (by rw [h3, hk]))
        · right
          exact ⟨k, by omega, h2, h3⟩


/-- The messages that the reads of `jbuf_gap_free_run` return are the written
ones, each once, in increasing order of sequence number; afterwards no slot
holds a message. -/
theorem jbuf_gap_free_run_sorted (q : JitterBuffer) (ms : List RTPMessage) (hwf : q.WF)
    (hempty : ∀ i, q.slot i = none) (hbt : q.top = q.bottom)
    (hperm : (ms.map RTPMessage.sequnum).Perm (List.range' q.bottom ms.length))
    (hn : ms.length ≤ q.size) (hnowrap : q.bottom + ms.length ≤ 65535) :
    (jbuf_read_times ms.length (jbuf_write_list q ms).1).2.map Prod.snd =
      List.replicate ms.length 1 ∧
    (returned_messages (jbuf_read_times ms.length (jbuf_write_list q ms).1).2).Perm ms ∧
    (returned_messages (jbuf_read_times ms.length (jbuf_write_list q ms).1).2).map
      RTPMessage.sequnum = List.range' q.bottom ms.length ∧
    (∀ i, (jbuf_read_times ms.length (jbuf_write_list q ms).1).1.slot i = none) := by
  have hin : ∀ k, k ∈ List.range' q.bottom ms.length → k ∈ ms.map RTPMessage.sequnum :=
    fun k hk => hperm.mem_iff.2 hk
  have hrange : ∀ m ∈ ms, q.bottom ≤ m.sequnum ∧ m.sequnum < q.bottom + ms.length := by
    intro m hm
    have := hperm.mem_iff.1 (List.mem_map_of_mem RTPMessage.sequnum hm)
    simpa [List.mem_range'_1] using this
  have hnd : (ms.map RTPMessage.sequnum).Nodup := hperm.nodup_iff.2 (List.nodup_range' _ _)
  obtain ⟨_, g2, g3, g4, _, _⟩ := jbuf_gap_free_run q ms hwf hempty hbt hperm hn hnowrap
  obtain ⟨w1, w2, w3, _, _, _, _, _, w9, _⟩ :=
    jbuf_write_list_fill q.bottom ms.length ms q hwf rfl hn hnowrap (by omega) hrange hnd
      (fun m _ => hempty _)
  have hmap : (returned_messages (jbuf_read_times ms.length (jbuf_write_list q ms).1).2).map
      RTPMessage.sequnum = List.range' q.bottom ms.length := by
    rw [g4, returned_messages_run, List.map_map]
    conv_rhs => rw [← List.map_id (List.range' q.bottom ms.length)]
    exact List.map_congr_left (fun k hk => (message_of_spec ms k (hin k hk)).2)
  have hndr : (returned_messages
      (jbuf_read_times ms.length (jbuf_write_list q ms).1).2).Nodup := by
    apply List.Nodup.of_map RTPMessage.sequnum
    rw [hmap]; exact List.nodup_range' _ _
  refine ⟨?_, ?_, hmap, ?_⟩
  · rw [g4, List.map_map]
    simp [Function.comp_def]
  · rw [List.perm_ext_iff_of_nodup hndr (List.Nodup.of_map _ hnd)]
    intro x
    rw [g4, returned_messages_run]
    constructor
    · intro hx
      obtain ⟨k, hk, hkx⟩ := List.mem_map.1 hx
      exact hkx ▸ (message_of_spec ms k (hin k hk)).1
    · intro hx
      have hk : x.sequnum ∈ List.range' q.bottom ms.length :=
        hperm.mem_iff.1 (List.mem_map_of_mem RTPMessage.sequnum hx)
      obtain ⟨s1, s2⟩ := message_of_spec ms x.sequnum (hin _ hk)
      have : message_of ms x.sequnum = x := List.inj_on_of_nodup_map hnd s1 hx s2
      exact List.mem_map.2 ⟨x.sequnum, hk, this⟩
  · intro i
    apply jbuf_read_times_clears (message_of ms) ms.length (jbuf_write_list q ms).1 w1
      (by rw [g3, g2]) (by rw [g3]; exact hnowrap) (by rw [w3]; exact hn)
    · intro k h1 h2
      rw [g2] at h1
      rw [g3] at h2
      obtain ⟨m1, m2⟩ := message_of_spec ms k
        (hin k (by simp [List.mem_range'_1]; omega))
      have := w9 _ m1
      rw [m2] at this
      rw [w3]; exact this
    · by_cases hex : ∃ m ∈ ms, m.sequnum % q.size = i
      · obtain ⟨m, hm, hmi⟩ := hex
        right
        have := hrange m hm
        exact ⟨m.sequnum, by rw [g2]; exact this.1, by rw [g3]; exact this.2,
          by rw [w3]; exact hmi.symm⟩
      · left
        rw [jbuf_write_list_untouched q.bottom ms.length ms q hwf rfl hn hnowrap (by omega)
          hrange hnd (fun m _ => hempty _) i (fun m hm hmi => hex ⟨m, hm, hmi⟩)]
        exact hempty i

theorem countP_set_none (l : List (Option RTPMessage)) :
    ∀ (i : Nat) (m : RTPMessage), l.getD i none = some m →
      (l.set i none).countP Option.isSome + 1 = l.countP Option.isSome := by
  induction l with
  | nil => intro i m h; simp [List.getD] at h
  | cons a l ih =>
    intro i m h
    cases i with
    | zero =>
      simp [List.getD] at h
      subst h
      simp [List.countP_cons]
    | succ i =>
      have h' : l.getD i none = some m := by simpa [List.getD] using h
      have := ih i m h'
      simp only [List.set_cons_succ, List.countP_cons]
      omega

theorem jbuf_read_occupied (q : JitterBuffer) (m : RTPMessage)
    (h : (jbuf_read q).msg = some m) : (jbuf_read q).q.occupied + 1 = q.occupied := by
  unfold jbuf_read at h ⊢
  split at h
  · simp at h
  · rename_i hne
    rw [if_neg hne]
    cases hs : q.slot (q.bottom % q.size) with
    | none =>
      rw [hs] at h
      dsimp only at h
      split at h <;> simp at h
    | some r =>
      exact countP_set_none q.queue _ r hs

theorem reconfigure_audio_decoder_j_buf (ac : ACSession) (sr ch : Int)
    (t1 t2 d : Nat) (st : Int) :
    (reconfigure_audio_decoder ac sr ch t1 t2 d st).ac.j_buf = ac.j_buf := by
  unfold reconfigure_audio_decoder
  split_ifs <;> rfl

theorem ac_do_reconfigure_j_buf (w : World) (i : Nat) (ac : ACSession) (msg : RTPMessage) :
    (ac_do_reconfigure w i ac msg).ac.j_buf = ac.j_buf := by
  unfold ac_do_reconfigure
  rw [reconfigure_audio_decoder_j_buf]

theorem ac_do_finish_spec (ac : ACSession) (tr : List Event) (rc : Int) :
    (ac_do_finish ac tr rc).ac.j_buf = ac.j_buf ∧
    count_reads (ac_do_finish ac tr rc).trace = count_reads tr ∧
    count_dropped (ac_do_finish ac tr rc).trace = count_dropped tr ∧
    count_decodes (ac_do_finish ac tr rc).trace = count_decodes tr := by
  unfold ac_do_finish
  split
  · exact ⟨rfl, rfl, rfl, rfl⟩
  · split
    · exact ⟨rfl, rfl, rfl, rfl⟩
    · split
      · exact ⟨rfl, rfl, rfl, rfl⟩
      · simp [count_reads, count_dropped, count_decodes, List.countP_append,
          Event.is_jbuf_read, Event.is_opus_decode, Event.is_reconfigure_failed]

theorem ac_do_conceal_spec (w : World) (i : Nat) (ac : ACSession) (tr : List Event) :
    (ac_do_conceal w i ac tr).ac.j_buf = ac.j_buf ∧
    count_reads (ac_do_conceal w i ac tr).trace = count_reads tr ∧
    count_dropped (ac_do_conceal w i ac tr).trace = count_dropped tr ∧
    count_decodes (ac_do_conceal w i ac tr).trace ≤ count_decodes tr + 1 := by
  unfold ac_do_conceal
  split
  · exact ⟨rfl, rfl, rfl, Nat.le_succ _⟩
  · obtain ⟨f1, f2, f3, f4⟩ := ac_do_finish_spec ac
      (tr ++ [Event.opus_decode ac.decoder none ‹Int› 1]) (w.decode_rc i)
    refine ⟨f1, ?_, ?_, ?_⟩
    · rw [f2]; simp [count_reads, List.countP_append, Event.is_jbuf_read]
    · rw [f3]; simp [count_dropped, List.countP_append, Event.is_reconfigure_failed]
    · rw [f4]; simp [count_decodes, List.countP_append, Event.is_opus_decode]

theorem ac_do_loop_spec (w : World) : ∀ (fuel i : Nat) (ac : ACSession) (tr : List Event),
    ac.j_buf.occupied < fuel →
    ∃ r k, ac_do_loop w fuel i ac tr = some r ∧
      count_reads r.trace = count_reads tr + k ∧
      count_dropped r.trace + 1 = count_dropped tr + k ∧
      count_decodes r.trace ≤ count_decodes tr + 1 ∧
      r.ac.j_buf = (jbuf_read_times k ac.j_buf).1 := by
  intro fuel
  induction fuel with
  | zero => intro i ac tr h; omega
  | succ f ih =>
    intro i ac tr h
    unfold ac_do_loop
    cases hm : (jbuf_read ac.j_buf).msg with
    | none =>
      dsimp only
      split
      · obtain ⟨c1, c2, c3, c4⟩ := ac_do_conceal_spec w i
          { ac with j_buf := (jbuf_read ac.j_buf).q }
          (tr ++ [Event.jbuf_read none (jbuf_read ac.j_buf).success, Event.mutex_unlock])
        refine ⟨_, 1, rfl, ?_, ?_, ?_, ?_⟩
        · rw [c2]; simp [count_reads, List.countP_append, Event.is_jbuf_read, List.countP_cons]
        · rw [c3]; simp [count_dropped, List.countP_append, Event.is_reconfigure_failed,
            List.countP_cons]
        · refine le_trans c4 ?_
          simp [count_decodes, List.countP_append, Event.is_opus_decode, List.countP_cons]
        · rw [c1]; rfl
      · refine ⟨_, 1, rfl, ?_, ?_, ?_, rfl⟩
        · simp [count_reads, List.countP_append, Event.is_jbuf_read, List.countP_cons]
        · simp [count_dropped, List.countP_append, Event.is_reconfigure_failed,
            List.countP_cons]
        · simp [count_decodes, List.countP_append, Event.is_opus_decode, List.countP_cons]
    | some msg =>
      dsimp only
      split
      · obtain ⟨c1, c2, c3, c4⟩ := ac_do_conceal_spec w i
          { ac with j_buf := (jbuf_read ac.j_buf).q }
          (tr ++ [Event.jbuf_read (some msg) (jbuf_read ac.j_buf).success,
                  Event.mutex_unlock])
        refine ⟨_, 1, rfl, ?_, ?_, ?_, ?_⟩
        · rw [c2]; simp [count_reads, List.countP_append, Event.is_jbuf_read, List.countP_cons]
        · rw [c3]; simp [count_dropped, List.countP_append, Event.is_reconfigure_failed,
            List.countP_cons]
        · refine le_trans c4 ?_
          simp [count_decodes, List.countP_append, Event.is_opus_decode, List.countP_cons]
        · rw [c1]; rfl
      · split
        · obtain ⟨c1, c2, c3, c4⟩ := ac_do_finish_spec
            (ac_do_reconfigure w i { ac with j_buf := (jbuf_read ac.j_buf).q } msg).ac
            (tr ++ [Event.jbuf_read (some msg) (jbuf_read ac.j_buf).success,
                    Event.mutex_unlock,
                    Event.opus_decode
                      (ac_do_reconfigure w i
                        { ac with j_buf := (jbuf_read ac.j_buf).q } msg).ac.decoder
                      (some (msg.data.drop 4)) decode_frame_size 0,
                    Event.rtp_free_msg msg])
            (w.decode_rc i)
          refine ⟨_, 1, rfl, ?_, ?_, ?_, ?_⟩
          · rw [c2]
            simp [count_reads, List.countP_append, Event.is_jbuf_read, List.countP_cons]
          · rw [c3]
            simp [count_dropped, List.countP_append, Event.is_reconfigure_failed,
              List.countP_cons]
          · rw [c4]
            simp [count_decodes, List.countP_append, Event.is_opus_decode, List.countP_cons]
          · rw [c1, ac_do_reconfigure_j_buf]; rfl
        · have hocc := jbuf_read_occupied ac.j_buf msg hm
          have hj := ac_do_reconfigure_j_buf w i
            { ac with j_buf := (jbuf_read ac.j_buf).q } msg
          obtain ⟨r, k, e1, e2, e3, e4, e5⟩ := ih (i + 1)
            (ac_do_reconfigure w i { ac with j_buf := (jbuf_read ac.j_buf).q } msg).ac
            (tr ++ [Event.jbuf_read (some msg) (jbuf_read ac.j_buf).success,
                    Event.mutex_unlock, Event.reconfigure_failed, Event.rtp_free_msg msg])
            (by rw [hj]; dsimp only; omega)
          refine ⟨r, k + 1, e1, ?_, ?_, ?_, ?_⟩
          · rw [e2]
            simp [count_reads, List.countP_append, Event.is_jbuf_read, List.countP_cons]
            omega
          · have : count_dropped (tr ++ [Event.jbuf_read (some msg) (jbuf_read ac.j_buf).success,
                Event.mutex_unlock, Event.reconfigure_failed, Event.rtp_free_msg msg]) =
                count_dropped tr + 1 := by
              simp [count_dropped, List.countP_append, Event.is_reconfigure_failed,
                List.countP_cons]
            omega
          · refine le_trans e4 ?_
            simp [count_decodes, List.countP_append, Event.is_opus_decode, List.countP_cons]
          · rw [e5, hj]; rfl

/-! ## C1: every written message comes back, in order -/

theorem empty_buffer_slot (size capacity b i : Nat) :
    (empty_buffer size capacity b).slot i = none := by
  simp [JitterBuffer.slot, empty_buffer, List.getD]

theorem jbuf_read_times_idle (q : JitterBuffer)
    (h : jbuf_read q = { msg := none, success := 0, q := q }) :
    ∀ n, ∀ r ∈ (jbuf_read_times n q).2, r = (none, 0) := by
  intro n
  induction n with
  | zero => intro r hr; simp [jbuf_read_times] at hr
  | succ n ih =>
    intro r hr
    simp only [jbuf_read_times, h, List.mem_cons] at hr
    rcases hr with hr | hr
    · exact hr
    · exact ih r hr

/-- Across the 16-bit wrap a write within the capacity is not kept in order:
at the empty buffer with `bottom = top = 65535` message 65535 is stored, and
the write of message 0 then clears the buffer and frees it. -/
theorem jbuf_write_across_wrap :
    (jbuf_write (empty_buffer 16 3 65535) (frame 65535)).ret = 0 ∧
    (jbuf_write (jbuf_write (empty_buffer 16 3 65535) (frame 65535)).q (frame 0)).freed =
      [frame 65535] := by
  decide

/-- C1, as stated, fails. Message 1 is written to the new buffer of capacity 3
(`bottom = 0`, so it is within 3 of `bottom`); the write returns 0, and every
later read returns no message with `*success = 0`, however many reads are
made: slot 0 is empty and `top - bottom = 2` does not exceed the capacity. -/
theorem C1_counterexample :
    (jbuf_write buffer_new3 (frame 1)).ret = 0 ∧
    (frame 1).sequnum ≤ buffer_new3.bottom + buffer_new3.capacity ∧
    ∀ n, ∀ r ∈ (jbuf_read_times n (jbuf_write buffer_new3 (frame 1)).q).2, r = (none, 0) :=
  ⟨by decide, by decide, jbuf_read_times_idle _ (by decide)⟩

/-- C1, amended. Let the buffer be empty with `bottom = top`, and let messages
be written, in any order, whose sequence numbers are pairwise distinct, lie
within `capacity` of `bottom` and leave no gap: they are exactly `bottom`,
`bottom + 1`, ..., without 16-bit wrap. Then every write returns 0, and as
many reads as there were writes all report status 1 and return every written
message exactly once, in strictly increasing order of sequence number. -/
theorem C1_gap_free_frames_returned (q : JitterBuffer) (ms : List RTPMessage) (hwf : q.WF)
    (hcap : q.capacity < q.size)
    (hempty : ∀ i, q.slot i = none) (hbt : q.top = q.bottom)
    (hperm : (ms.map RTPMessage.sequnum).Perm (List.range' q.bottom ms.length))
    (hspan : ∀ m ∈ ms, m.sequnum ≤ q.bottom + q.capacity)
    (hnowrap : q.bottom + ms.length ≤ 65535) :
    (jbuf_write_list q ms).2 = List.replicate ms.length 0 ∧
    (jbuf_read_times ms.length (jbuf_write_list q ms).1).2.map Prod.snd =
      List.replicate ms.length 1 ∧
    (returned_messages (jbuf_read_times ms.length (jbuf_write_list q ms).1).2).Perm ms ∧
    (returned_messages (jbuf_read_times ms.length (jbuf_write_list q ms).1).2).map
      RTPMessage.sequnum = List.range' q.bottom ms.length ∧
    (returned_messages (jbuf_read_times ms.length (jbuf_write_list q ms).1).2).Pairwise
      (fun a b => a.sequnum < b.sequnum) := by
  have hin : ∀ k, k ∈ List.range' q.bottom ms.length → k ∈ ms.map RTPMessage.sequnum :=
    fun k hk => hperm.mem_iff.2 hk
  have hn : ms.length ≤ q.size := by
    by_cases h0 : ms.length = 0
    · omega
    · obtain ⟨m, hm, hmk⟩ := List.mem_map.1
        (hin (q.bottom + ms.length - 1) (by simp [List.mem_range'_1]; omega))
      have := hspan m hm
      omega
  obtain ⟨g1, _, _, g4, _, _⟩ := jbuf_gap_free_run q ms hwf hempty hbt hperm hn hnowrap
  have hseq : (List.range' q.bottom ms.length).map
      (fun k => (message_of ms k).sequnum) = List.range' q.bottom ms.length := by
    conv_rhs => rw [← List.map_id (List.range' q.bottom ms.length)]
    exact List.map_congr_left (fun k hk => (message_of_spec ms k (hin k hk)).2)
  have hmap : (returned_messages (jbuf_read_times ms.length (jbuf_write_list q ms).1).2).map
      RTPMessage.sequnum = List.range' q.bottom ms.length := by
    rw [g4, returned_messages_run, List.map_map]
    exact hseq
  have hnd : (ms.map RTPMessage.sequnum).Nodup := hperm.nodup_iff.2 (List.nodup_range' _ _)
  have hndr : (returned_messages
      (jbuf_read_times ms.length (jbuf_write_list q ms).1).2).Nodup := by
    apply List.Nodup.of_map RTPMessage.sequnum
    rw [hmap]; exact List.nodup_range' _ _
  refine ⟨g1, ?_, ?_, hmap, ?_⟩
  · rw [g4, List.map_map]
    simp [Function.comp_def]
  · rw [List.perm_ext_iff_of_nodup hndr (List.Nodup.of_map _ hnd)]
    intro x
    rw [g4, returned_messages_run]
    constructor
    · intro hx
      obtain ⟨k, hk, hkx⟩ := List.mem_map.1 hx
      exact hkx ▸ (message_of_spec ms k (hin k hk)).1
    · intro hx
      have hk : x.sequnum ∈ List.range' q.bottom ms.length :=
        hperm.mem_iff.1 (List.mem_map_of_mem RTPMessage.sequnum hx)
      obtain ⟨s1, s2⟩ := message_of_spec ms x.sequnum (hin _ hk)
      have : message_of ms x.sequnum = x := List.inj_on_of_nodup_map hnd s1 hx s2
      exact List.mem_map.2 ⟨x.sequnum, hk, this⟩
  · have := List.pairwise_lt_range' q.bottom ms.length
    rw [← hmap, List.pairwise_map] at this
    exact this

/-- C1 amended, at a concrete input: 12, 10, 13, 11 arrive at the empty buffer
of capacity 3 with `bottom = top = 10`. -/
theorem C1_gap_free_frames_returned_witness :
    (jbuf_write_list buffer_at10 [frame 12, frame 10, frame 13, frame 11]).2 =
      List.replicate 4 0 ∧
    (jbuf_read_times 4
      (jbuf_write_list buffer_at10 [frame 12, frame 10, frame 13, frame 11]).1).2.map Prod.snd =
      List.replicate 4 1 ∧
    (returned_messages (jbuf_read_times 4
      (jbuf_write_list buffer_at10 [frame 12, frame 10, frame 13, frame 11]).1).2).Perm
      [frame 12, frame 10, frame 13, frame 11] ∧
    (returned_messages (jbuf_read_times 4
      (jbuf_write_list buffer_at10 [frame 12, frame 10, frame 13, frame 11]).1).2).map
      RTPMessage.sequnum = List.range' 10 4 ∧
    (returned_messages (jbuf_read_times 4
      (jbuf_write_list buffer_at10 [frame 12, frame 10, frame 13, frame 11]).1).2).Pairwise
      (fun a b => a.sequnum < b.sequnum) :=
  C1_gap_free_frames_returned buffer_at10 [frame 12, frame 10, frame 13, frame 11]
    (by decide) (by decide) (empty_buffer_slot 16 3 10) rfl (by decide) (by decide) (by decide)

/-! ## C2: the scenario 10, 11, 13, 14, 15, 16 -/

/-- C2, as stated, fails. `jbuf_new(3)` starts at `bottom = 0`; after the
writes of 10, 11, 13, 14, 15, 16 (all return 0) message 16 sits in slot 0,
and four reads yield message 16 and then three loss signals; `bottom` ends
at 4. -/
theorem C2_counterexample :
    jbuf_new 3 true true = some buffer_new3 ∧
    (jbuf_write_list buffer_new3
      [frame 10, frame 11, frame 13, frame 14, frame 15, frame 16]).2 = [0, 0, 0, 0, 0, 0] ∧
    (jbuf_read_times 4 (jbuf_write_list buffer_new3
      [frame 10, frame 11, frame 13, frame 14, frame 15, frame 16]).1).2 =
      [(some (frame 16), 1), (none, 2), (none, 2), (none, 2)] ∧
    (jbuf_read_times 4 (jbuf_write_list buffer_new3
      [frame 10, frame 11, frame 13, frame 14, frame 15, frame 16]).1).1.bottom = 4 := by
  decide

/-- C2, amended. Starting from the empty buffer of capacity 3 (16 slots) with
`bottom = top = 10`, a state that `jbuf_new(3)`, writes and reads produce, the
writes of 10, 11, 13, 14, 15, 16 all return 0, four reads yield message 10,
message 11, a loss signal without message, and message 13, and `bottom` is 14
afterwards. -/
theorem C2_scenario_from_low_10 :
    Reachable 3 buffer_at10 ∧
    (jbuf_write_list buffer_at10
      [frame 10, frame 11, frame 13, frame 14, frame 15, frame 16]).2 = [0, 0, 0, 0, 0, 0] ∧
    (jbuf_read_times 4 (jbuf_write_list buffer_at10
      [frame 10, frame 11, frame 13, frame 14, frame 15, frame 16]).1).2 =
      [(some (frame 10), 1), (some (frame 11), 1), (none, 2), (some (frame 13), 1)] ∧
    (jbuf_read_times 4 (jbuf_write_list buffer_at10
      [frame 10, frame 11, frame 13, frame 14, frame 15, frame 16]).1).1.bottom = 14 :=
  ⟨reachable_buffer_at10, by decide, by decide, by decide⟩

/-! ## C3: the loss branch of jbuf_read -/

/-- C3. When `bottom != top`, the slot at `bottom % size` is empty and
`top - bottom` exceeds `capacity`, `jbuf_read` returns no message with
`*success = 2`, increments `bottom` by exactly 1, and leaves `top`, the queue,
`size` and `capacity` as they were. -/
theorem C3_jbuf_read_loss (q : JitterBuffer) (hwf : q.WF) (hne : q.bottom ≠ q.top)
    (hslot : q.slot (q.bottom % q.size) = none)
    (hgap : (q.capacity : Int) < (q.top : Int) - (q.bottom : Int)) :
    (jbuf_read q).msg = none ∧ (jbuf_read q).success = 2 ∧
    (jbuf_read q).q.bottom = q.bottom + 1 ∧ (jbuf_read q).q.top = q.top ∧
    (jbuf_read q).q.queue = q.queue ∧ (jbuf_read q).q.size = q.size ∧
    (jbuf_read q).q.capacity = q.capacity := by
  obtain ⟨_, _, _, _, hb, ht⟩ := hwf
  have h1 : ¬ q.top = q.bottom := fun h => hne h.symm
  have h2 : to_uint32 ((q.top : Int) - (q.bottom : Int)) > q.capacity := by
    have := to_uint32_cast ((q.top : Int) - (q.bottom : Int)); omega
  have h3 : to_uint16 ((q.bottom : Int) + 1) = q.bottom + 1 := by
    have := to_uint16_cast ((q.bottom : Int) + 1); omega
  simp [jbuf_read, h1, hslot, h2, h3]

/-- C3 at a concrete buffer: capacity 3, `bottom = 12`, `top = 17`, slot 12
empty and message 13 waiting. -/
theorem C3_jbuf_read_loss_witness :
    (jbuf_read { queue := (List.replicate 16 none).set 13 (some (frame 13)), size := 16,
                 capacity := 3, bottom := 12, top := 17 }).msg = none ∧
    (jbuf_read { queue := (List.replicate 16 none).set 13 (some (frame 13)), size := 16,
                 capacity := 3, bottom := 12, top := 17 }).success = 2 ∧
    (jbuf_read { queue := (List.replicate 16 none).set 13 (some (frame 13)), size := 16,
                 capacity := 3, bottom := 12, top := 17 }).q.bottom = 12 + 1 ∧
    (jbuf_read { queue := (List.replicate 16 none).set 13 (some (frame 13)), size := 16,
                 capacity := 3, bottom := 12, top := 17 }).q.top = 17 ∧
    (jbuf_read { queue := (List.replicate 16 none).set 13 (some (frame 13)), size := 16,
                 capacity := 3, bottom := 12, top := 17 }).q.queue =
      (List.replicate 16 none).set 13 (some (frame 13)) ∧
    (jbuf_read { queue := (List.replicate 16 none).set 13 (some (frame 13)), size := 16,
                 capacity := 3, bottom := 12, top := 17 }).q.size = 16 ∧
    (jbuf_read { queue := (List.replicate 16 none).set 13 (some (frame 13)), size := 16,
                 capacity := 3, bottom := 12, top := 17 }).q.capacity = 3 :=
  C3_jbuf_read_loss
    { queue := (List.replicate 16 none).set 13 (some (frame 13)), size := 16,
      capacity := 3, bottom := 12, top := 17 }
    (by decide) (by decide) (by decide) (by decide)

/-! ## C4: duplicates -/

/-- C4, as stated, fails. After `jbuf_new(3)` and writes of the messages 17
and 1 the buffer stores message 1 in slot 1, with `bottom = 65534` and
`top = 2`; writing a message with sequence number 1 again takes the clearing
branch: it returns 0, not -1, and frees the stored message. -/
theorem C4_counterexample :
    Reachable 3 (jbuf_write_list buffer_new3 [frame 17, frame 1]).1 ∧
    (jbuf_write_list buffer_new3 [frame 17, frame 1]).1.slot (1 % 16) = some (frame 1) ∧
    (jbuf_write_list buffer_new3 [frame 17, frame 1]).1.bottom = 65534 ∧
    (jbuf_write_list buffer_new3 [frame 17, frame 1]).1.top = 2 ∧
    (jbuf_write (jbuf_write_list buffer_new3 [frame 17, frame 1]).1 (frame 1)).ret = 0 ∧
    (jbuf_write (jbuf_write_list buffer_new3 [frame 17, frame 1]).1 (frame 1)).freed
      = [frame 1] :=
  ⟨reachable_write_list 3 _ _ reachable_buffer_new3 (by decide),
   by decide, by decide, by decide, by decide, by decide⟩

/-- C4, amended. For every buffer and every message whose sequence number is
at or above `bottom`, at most `size` above it, and whose target slot
`sequnum % size` is occupied, `jbuf_write` returns -1, frees nothing and
leaves the buffer (`bottom`, `top`, every slot) unchanged. -/
theorem C4_duplicate_rejected (q : JitterBuffer) (m : RTPMessage) (hwf : q.WF)
    (hm : m.sequnum < 65536) (hlo : q.bottom ≤ m.sequnum)
    (hhi : m.sequnum ≤ q.bottom + q.size)
    (hocc : (q.slot (m.sequnum % q.size)).isSome) :
    jbuf_write q m = { ret := -1, q := q, freed := [] } := by
  rw [jbuf_write_window q m hwf hm hlo hhi, if_pos hocc]

/-- C4 amended, at a concrete buffer: message 11 is stored and arrives again. -/
theorem C4_duplicate_rejected_witness :
    jbuf_write (jbuf_write_list buffer_at10 [frame 10, frame 11]).1 (frame 11) =
      { ret := -1, q := (jbuf_write_list buffer_at10 [frame 10, frame 11]).1, freed := [] } :=
  C4_duplicate_rejected (jbuf_write_list buffer_at10 [frame 10, frame 11]).1 (frame 11)
    (by decide) (by decide) (by decide) (by decide) (by decide)

/-! ## C5: the clearing branch of jbuf_write -/

/-- C5, as stated, fails. Message 65535 is more than 16 away from `bottom = 0`
of the new buffer; after the write `top` is 0, not 65535 + 1. -/
theorem C5_counterexample :
    buffer_new3.bottom + buffer_new3.size < (frame 65535).sequnum ∧
    (jbuf_write buffer_new3 (frame 65535)).ret = 0 ∧
    (jbuf_write buffer_new3 (frame 65535)).q.top = 0 ∧
    (jbuf_write buffer_new3 (frame 65535)).q.top ≠ (frame 65535).sequnum + 1 := by
  decide

/-- C5, amended. For every buffer and every message whose sequence number `s`
is below `bottom` or more than `size` above it, `jbuf_write` returns 0 and
leaves `bottom = (s - capacity) mod 65536`, `top = (s + 1) mod 65536` and the
message in slot `s % size`; `bottom = s - capacity` when `capacity <= s` and
`top = s + 1` when `s < 65535`. -/
theorem C5_reset_around_message (q : JitterBuffer) (m : RTPMessage) (hwf : q.WF)
    (hsz : q.size ≤ 2147483648) (hm : m.sequnum < 65536)
    (hfar : m.sequnum < q.bottom ∨ q.bottom + q.size < m.sequnum) :
    (jbuf_write q m).ret = 0 ∧
    ((jbuf_write q m).q.bottom : Int) = ((m.sequnum : Int) - (q.capacity : Int)) % 65536 ∧
    (jbuf_write q m).q.top = (m.sequnum + 1) % 65536 ∧
    (jbuf_write q m).q.slot (m.sequnum % q.size) = some m ∧
    (q.capacity ≤ m.sequnum → (jbuf_write q m).q.bottom = m.sequnum - q.capacity) ∧
    (m.sequnum < 65535 → (jbuf_write q m).q.top = m.sequnum + 1) := by
  rw [jbuf_write_reset q m hwf hsz hm hfar]
  have hc := to_uint16_cast ((m.sequnum : Int) - (q.capacity : Int))
  have hlen : m.sequnum % q.size < (jbuf_clear q).1.queue.length := by
    rw [(jbuf_clear_frame q).2.2.2, hwf.1]
    exact Nat.mod_lt _ hwf.2.1
  refine ⟨rfl, hc, rfl, ?_, ?_, ?_⟩
  · exact getD_set_self _ _ _ hlen
  · intro h
    show to_uint16 ((m.sequnum : Int) - (q.capacity : Int)) = m.sequnum - q.capacity
    omega
  · intro h
    show (m.sequnum + 1) % 65536 = m.sequnum + 1
    omega

/-- C5 amended, at a concrete buffer: message 5005 arrives at the empty buffer
with `bottom = top = 5`. -/
theorem C5_reset_around_message_witness :
    (jbuf_write buffer_at5 (frame 5005)).ret = 0 ∧
    ((jbuf_write buffer_at5 (frame 5005)).q.bottom : Int) =
      (((frame 5005).sequnum : Int) - (buffer_at5.capacity : Int)) % 65536 ∧
    (jbuf_write buffer_at5 (frame 5005)).q.top = ((frame 5005).sequnum + 1) % 65536 ∧
    (jbuf_write buffer_at5 (frame 5005)).q.slot ((frame 5005).sequnum % buffer_at5.size) =
      some (frame 5005) ∧
    (buffer_at5.capacity ≤ (frame 5005).sequnum →
      (jbuf_write buffer_at5 (frame 5005)).q.bottom =
        (frame 5005).sequnum - buffer_at5.capacity) ∧
    ((frame 5005).sequnum < 65535 →
      (jbuf_write buffer_at5 (frame 5005)).q.top = (frame 5005).sequnum + 1) :=
  C5_reset_around_message buffer_at5 (frame 5005) (by decide) (by decide) (by decide)
    (Or.inr (by decide))

/-! ## C6: the scenario 5005 -/

/-- C6, as stated, fails. After message 5005 is written to the empty buffer
with `bottom = top = 5` the very next read returns no message: it reports a
loss (`*success = 2`). -/
theorem C6_counterexample :
    (jbuf_write buffer_at5 (frame 5005)).ret = 0 ∧
    (jbuf_read (jbuf_write buffer_at5 (frame 5005)).q).msg = none ∧
    (jbuf_read (jbuf_write buffer_at5 (frame 5005)).q).success = 2 := by
  decide

/-- C6, amended. Writing message 5005 to the empty buffer of capacity 3 with
`bottom = top = 5` returns 0, frees nothing and leaves `bottom = 5002`,
`top = 5006` and the message in slot 13. The next read reports a loss and
moves `bottom` to 5003, the read after it reports empty. Once 5003 and 5004
have been written, three reads return 5003, 5004 and 5005 with status 1. The
starting buffer is a state that `jbuf_new(3)`, writes and reads produce. -/
theorem C6_scenario_5005 :
    Reachable 3 buffer_at5 ∧
    (jbuf_write buffer_at5 (frame 5005)).ret = 0 ∧
    (jbuf_write buffer_at5 (frame 5005)).freed = [] ∧
    (jbuf_write buffer_at5 (frame 5005)).q.bottom = 5002 ∧
    (jbuf_write buffer_at5 (frame 5005)).q.top = 5006 ∧
    (jbuf_write buffer_at5 (frame 5005)).q.slot 13 = some (frame 5005) ∧
    (jbuf_read_times 2 (jbuf_write buffer_at5 (frame 5005)).q).2 = [(none, 2), (none, 0)] ∧
    (jbuf_read_times 2 (jbuf_write buffer_at5 (frame 5005)).q).1.bottom = 5003 ∧
    (jbuf_read_times 3 (jbuf_write_list
        (jbuf_read_times 2 (jbuf_write buffer_at5 (frame 5005)).q).1
        [frame 5003, frame 5004]).1).2 =
      [(some (frame 5003), 1), (some (frame 5004), 1), (some (frame 5005), 1)] :=
  ⟨reachable_buffer_at5, by decide, by decide, by decide, by decide, by decide, by decide,
   by decide, by decide⟩

/-! ## C7: how jbuf_write compares sequence numbers -/

/-- C7, as stated, fails. Three writes (65534, 65532, 65533) and three reads
after `jbuf_new(3)` give a buffer with `bottom = 65534`, `top = 65535` that
stores message 65534. Message 0 is 2 above `bottom` modulo 65536, yet its
write frees message 65534 and resets `bottom` to 65533. -/
theorem C7_counterexample :
    Reachable 3 (jbuf_read_times 3 (jbuf_write_list buffer_new3
      [frame 65534, frame 65532, frame 65533]).1).1 ∧
    (jbuf_read_times 3 (jbuf_write_list buffer_new3
      [frame 65534, frame 65532, frame 65533]).1).1.bottom = 65534 ∧
    ((frame 0).sequnum + 65536 - 65534) % 65536 ≤
      (jbuf_read_times 3 (jbuf_write_list buffer_new3
        [frame 65534, frame 65532, frame 65533]).1).1.size ∧
    (jbuf_write (jbuf_read_times 3 (jbuf_write_list buffer_new3
      [frame 65534, frame 65532, frame 65533]).1).1 (frame 0)).freed = [frame 65534] ∧
    (jbuf_write (jbuf_read_times 3 (jbuf_write_list buffer_new3
      [frame 65534, frame 65532, frame 65533]).1).1 (frame 0)).q.bottom = 65533 :=
  ⟨reachable_read_times 3 _ _
     (reachable_write_list 3 _ _ reachable_buffer_new3 (by decide)),
   by decide, by decide, by decide, by decide⟩

/-- C7, amended. `jbuf_write` compares the plain integer difference
`sequnum - bottom`: for every buffer and every message with
`bottom <= sequnum <= bottom + size` the write does not take the clearing
branch, i.e. it frees no message and leaves `bottom` as it was. -/
theorem C7_no_reset_inside_window (q : JitterBuffer) (m : RTPMessage) (hwf : q.WF)
    (hm : m.sequnum < 65536) (hlo : q.bottom ≤ m.sequnum)
    (hhi : m.sequnum ≤ q.bottom + q.size) :
    (jbuf_write q m).freed = [] ∧ (jbuf_write q m).q.bottom = q.bottom := by
  rw [jbuf_write_window q m hwf hm hlo hhi]
  split
  · exact ⟨rfl, rfl⟩
  · split <;> exact ⟨rfl, rfl⟩

/-- C7 amended, at a concrete buffer: message 12 arrives while 10 and 11 are
stored and `bottom = 10`. -/
theorem C7_no_reset_inside_window_witness :
    (jbuf_write (jbuf_write_list buffer_at10 [frame 10, frame 11]).1 (frame 12)).freed = [] ∧
    (jbuf_write (jbuf_write_list buffer_at10 [frame 10, frame 11]).1 (frame 12)).q.bottom =
      (jbuf_write_list buffer_at10 [frame 10, frame 11]).1.bottom :=
  C7_no_reset_inside_window (jbuf_write_list buffer_at10 [frame 10, frame 11]).1 (frame 12)
    (by decide) (by decide) (by decide) (by decide)

/-! ## C8: the distance between bottom and top -/

/-- C8, as stated, fails. After `jbuf_new(3)` and writes of the messages 20
and 2 the buffer has `bottom = 65535` and `top = 3`: `bottom <= top` does not
hold. After `jbuf_new(3)` and a write of message 16 it has `bottom = 0` and
`top = 17`, one more than `size = 16`. -/
theorem C8_counterexample :
    Reachable 3 (jbuf_write_list buffer_new3 [frame 20, frame 2]).1 ∧
    (jbuf_write_list buffer_new3 [frame 20, frame 2]).1.bottom = 65535 ∧
    (jbuf_write_list buffer_new3 [frame 20, frame 2]).1.top = 3 ∧
    ¬ ((jbuf_write_list buffer_new3 [frame 20, frame 2]).1.bottom ≤
         (jbuf_write_list buffer_new3 [frame 20, frame 2]).1.top ∧
       (jbuf_write_list buffer_new3 [frame 20, frame 2]).1.top -
         (jbuf_write_list buffer_new3 [frame 20, frame 2]).1.bottom ≤
         (jbuf_write_list buffer_new3 [frame 20, frame 2]).1.size) ∧
    Reachable 3 (jbuf_write buffer_new3 (frame 16)).q ∧
    (jbuf_write buffer_new3 (frame 16)).q.top - (jbuf_write buffer_new3 (frame 16)).q.bottom
      = 17 ∧
    (jbuf_write buffer_new3 (frame 16)).q.size = 16 :=
  ⟨reachable_write_list 3 _ _ reachable_buffer_new3 (by decide),
   by decide, by decide, by decide,
   Reachable.write _ _ reachable_buffer_new3 (by decide), by decide, by decide⟩

/-- C8, amended. `bottom` and `top` are 16-bit counters that wrap around. In
every state that `jbuf_new`, reads and writes produce, as long as no written
message was exactly `size` above `bottom` when it arrived, both counters are
below 65536 and the distance from `bottom` up to `top` modulo 65536 is at
most `size`. -/
theorem C8_wrapped_distance_bounded (c : Nat) (q : JitterBuffer)
    (h : ReachableInside c q) :
    q.bottom < 65536 ∧ q.top < 65536 ∧ (q.top + 65536 - q.bottom) % 65536 ≤ q.size := by
  obtain ⟨hwf, _, _, hdist⟩ := inside_invariant c q h
  exact ⟨hwf.2.2.2.2.1, hwf.2.2.2.2.2, hdist⟩

/-- C8 amended, at a concrete state: `jbuf_new(3)`, then the writes of 20 and
2 (the second one wraps `bottom` to 65535), then a read. -/
theorem C8_wrapped_distance_bounded_witness :
    (jbuf_read (jbuf_write (jbuf_write buffer_new3 (frame 20)).q (frame 2)).q).q.bottom
      < 65536 ∧
    (jbuf_read (jbuf_write (jbuf_write buffer_new3 (frame 20)).q (frame 2)).q).q.top
      < 65536 ∧
    ((jbuf_read (jbuf_write (jbuf_write buffer_new3 (frame 20)).q (frame 2)).q).q.top + 65536 -
      (jbuf_read (jbuf_write (jbuf_write buffer_new3 (frame 20)).q (frame 2)).q).q.bottom)
        % 65536 ≤
      (jbuf_read (jbuf_write (jbuf_write buffer_new3 (frame 20)).q (frame 2)).q).q.size :=
  C8_wrapped_distance_bounded 3
    (jbuf_read (jbuf_write (jbuf_write buffer_new3 (frame 20)).q (frame 2)).q).q
    (ReachableInside.read _
      (ReachableInside.write _ (frame 2)
        (ReachableInside.write _ (frame 20)
          (ReachableInside.new buffer_new3 true true (by decide) (by decide))
          (by decide) (by decide))
        (by decide) (by decide)))

/-! ## C9: jbuf_clear -/

/-- C9 holds for the intent of `jbuf_clear` but not for the code. After
`jbuf_new(3)` and writes of the messages 65535 and 65533 the buffer has
`bottom = 65532`, `top = 65534` and stores both messages (slots 15 and 13).
`jbuf_clear`, and so `jbuf_free`, frees message 65533 only: slot 15 still
holds message 65535. A clearing write of message 100 then leaves two messages
stored, and a clearing write of message 15 overwrites slot 15, whose message
was not freed. -/
theorem C9_clear_leaves_a_message :
    Reachable 3 (jbuf_write_list buffer_new3 [frame 65535, frame 65533]).1 ∧
    (jbuf_write_list buffer_new3 [frame 65535, frame 65533]).1.bottom = 65532 ∧
    (jbuf_write_list buffer_new3 [frame 65535, frame 65533]).1.top = 65534 ∧
    (jbuf_write_list buffer_new3 [frame 65535, frame 65533]).1.queue.filterMap id =
      [frame 65533, frame 65535] ∧
    (jbuf_clear (jbuf_write_list buffer_new3 [frame 65535, frame 65533]).1).2 =
      [frame 65533] ∧
    (jbuf_clear (jbuf_write_list buffer_new3 [frame 65535, frame 65533]).1).1.slot 15 =
      some (frame 65535) ∧
    jbuf_free (some (jbuf_write_list buffer_new3 [frame 65535, frame 65533]).1) =
      [frame 65533] ∧
    (jbuf_write (jbuf_write_list buffer_new3 [frame 65535, frame 65533]).1 (frame 100)).freed =
      [frame 65533] ∧
    (jbuf_write (jbuf_write_list buffer_new3 [frame 65535, frame 65533]).1
      (frame 100)).q.queue.filterMap id = [frame 100, frame 65535] ∧
    (jbuf_write (jbuf_write_list buffer_new3 [frame 65535, frame 65533]).1 (frame 15)).freed =
      [frame 65533] ∧
    (jbuf_write (jbuf_write_list buffer_new3 [frame 65535, frame 65533]).1
      (frame 15)).q.slot 15 = some (frame 15) :=
  ⟨reachable_write_list 3 _ _ reachable_buffer_new3 (by decide),
   by decide, by decide, by decide, by decide, by decide, by decide, by decide, by decide,
   by decide, by decide⟩

/-! ## C10: two decoder reconfigurations within 500 ms -/

/-- C10. Let a call of `reconfigure_audio_decoder` with parameters that differ
from the current decoding parameters return true, its clock readings being
`t1` (the check) and `t1s` (the stored timestamp). A second call with
parameters that differ from the ones now current, at a clock reading `t2`
with `t1 <= t1s <= t2` and `t2 - t1 < 500`, returns false, destroys no
decoder and leaves the whole session, in particular the decoder handle, the
last decoding sampling rate and channel count and the timestamp, as the first
call left it. -/
theorem C10_second_reconfiguration_throttled (ac : ACSession) (sr1 ch1 sr2 ch2 : Int)
    (t1 t1s t2 t2s dec1 dec2 : Nat) (st1 st2 : Int)
    (hd1 : sr1 ≠ ac.last_decoding_sampling_rate ∨ ch1 ≠ ac.last_decoding_channel_count)
    (hok : (reconfigure_audio_decoder ac sr1 ch1 t1 t1s dec1 st1).ret = true)
    (h1 : t1 ≤ t1s) (h2 : t1s ≤ t2) (h500 : t2 - t1 < 500)
    (hd2 : sr2 ≠ (reconfigure_audio_decoder ac sr1 ch1 t1 t1s dec1 st1).ac.last_decoding_sampling_rate ∨
           ch2 ≠ (reconfigure_audio_decoder ac sr1 ch1 t1 t1s dec1 st1).ac.last_decoding_channel_count) :
    (reconfigure_audio_decoder (reconfigure_audio_decoder ac sr1 ch1 t1 t1s dec1 st1).ac
        sr2 ch2 t2 t2s dec2 st2).ret = false ∧
    (reconfigure_audio_decoder (reconfigure_audio_decoder ac sr1 ch1 t1 t1s dec1 st1).ac
        sr2 ch2 t2 t2s dec2 st2).ac =
      (reconfigure_audio_decoder ac sr1 ch1 t1 t1s dec1 st1).ac ∧
    (reconfigure_audio_decoder (reconfigure_audio_decoder ac sr1 ch1 t1 t1s dec1 st1).ac
        sr2 ch2 t2 t2s dec2 st2).destroyed = [] ∧
    (reconfigure_audio_decoder ac sr1 ch1 t1 t1s dec1 st1).ac.decoder = dec1 ∧
    (reconfigure_audio_decoder ac sr1 ch1 t1 t1s dec1 st1).ac.last_decoding_sampling_rate = sr1 ∧
    (reconfigure_audio_decoder ac sr1 ch1 t1 t1s dec1 st1).ac.last_decoding_channel_count = ch1 ∧
    (reconfigure_audio_decoder ac sr1 ch1 t1 t1s dec1 st1).ac.last_decoder_reconfiguration = t1s := by
  have hfirst : reconfigure_audio_decoder ac sr1 ch1 t1 t1s dec1 st1 =
      { ret := true,
        ac := { ac with last_decoding_sampling_rate := sr1,
                        last_decoding_channel_count := ch1,
                        last_decoder_reconfiguration := t1s,
                        decoder := dec1 },
        destroyed := [ac.decoder] } := by
    unfold reconfigure_audio_decoder at hok ⊢
    rw [if_pos hd1] at hok ⊢
    split at hok
    · exact absurd hok (by simp)
    · split at hok
      · exact absurd hok (by simp)
      · rename_i hA hB
        rw [if_neg hA, if_neg hB]
  rw [hfirst] at hd2 ⊢
  have hthr : to_uint64 ((t2 : Int) - (t1s : Int)) < 500 := by
    have := to_uint64_cast ((t2 : Int) - (t1s : Int)); omega
  refine ⟨?_, ?_, ?_, rfl, rfl, rfl, rfl⟩ <;>
    · unfold reconfigure_audio_decoder
      rw [if_pos hd2, if_pos hthr]

/-- C10 at a concrete session: the session of `ac_new` is reconfigured to
24000 Hz mono at clock reading 1000 and asked for 16000 Hz mono at 1300. -/
theorem C10_second_reconfiguration_throttled_witness :
    (reconfigure_audio_decoder (reconfigure_audio_decoder session_48k 24000 1 1000 1001 7 0).ac
        16000 1 1300 1300 8 0).ret = false ∧
    (reconfigure_audio_decoder (reconfigure_audio_decoder session_48k 24000 1 1000 1001 7 0).ac
        16000 1 1300 1300 8 0).ac =
      (reconfigure_audio_decoder session_48k 24000 1 1000 1001 7 0).ac ∧
    (reconfigure_audio_decoder (reconfigure_audio_decoder session_48k 24000 1 1000 1001 7 0).ac
        16000 1 1300 1300 8 0).destroyed = [] ∧
    (reconfigure_audio_decoder session_48k 24000 1 1000 1001 7 0).ac.decoder = 7 ∧
    (reconfigure_audio_decoder session_48k 24000 1 1000 1001 7 0).ac.last_decoding_sampling_rate
      = 24000 ∧
    (reconfigure_audio_decoder session_48k 24000 1 1000 1001 7 0).ac.last_decoding_channel_count
      = 1 ∧
    (reconfigure_audio_decoder session_48k 24000 1 1000 1001 7 0).ac.last_decoder_reconfiguration
      = 1001 :=
  C10_second_reconfiguration_throttled session_48k 24000 1 16000 1 1000 1001 1300 1300 7 8 0 0
    (by decide) (by decide) (by decide) (by decide) (by decide) (by decide)

/-! ## C11: a failed reconfiguration changes nothing -/

/-- C11. When `reconfigure_audio_decoder` returns false the session afterwards
equals the session before and no decoder was destroyed; when
`ac_reconfigure_encoder` returns -1 the session afterwards equals the session
before. In particular the codec handle, the last parameters and the timestamp
are the ones from before the call. -/
theorem C11_failed_reconfiguration_atomic (ac : ACSession) (sr ch : Int) (t1 t2 d : Nat)
    (st : Int) (bitrate esr : Int) (channels : Nat) (e : EncoderCreation) (ctl : Int) :
    ((reconfigure_audio_decoder ac sr ch t1 t2 d st).ret = false →
      (reconfigure_audio_decoder ac sr ch t1 t2 d st).ac = ac ∧
      (reconfigure_audio_decoder ac sr ch t1 t2 d st).destroyed = []) ∧
    ((ac_reconfigure_encoder ac bitrate esr channels e ctl).ret = -1 →
      (ac_reconfigure_encoder ac bitrate esr channels e ctl).ac = ac) := by
  constructor
  · unfold reconfigure_audio_decoder
    split_ifs <;> simp
  · unfold ac_reconfigure_encoder
    split_ifs
    · cases hc : create_audio_encoder e bitrate esr channels with
      | mk handle calls =>
        cases handle with
        | none => simp
        | some h => simp
    · simp
    · simp
    · simp

/-- C11 at concrete calls on the session of `ac_new`: a decoder
reconfiguration 100 ms after the last one, and an encoder reconfiguration for
which `opus_encoder_create` fails. -/
theorem C11_failed_reconfiguration_atomic_witness :
    ((reconfigure_audio_decoder session_48k 24000 1 100 100 7 0).ac = session_48k ∧
      (reconfigure_audio_decoder session_48k 24000 1 100 100 7 0).destroyed = []) ∧
    (ac_reconfigure_encoder session_48k 64000 24000 1
      { handle := 5, create_status := -1, bitrate_status := 0, complexity_status := 0 }
      0).ac = session_48k :=
  ⟨(C11_failed_reconfiguration_atomic session_48k 24000 1 100 100 7 0 64000 24000 1
      { handle := 5, create_status := -1, bitrate_status := 0, complexity_status := 0 }
      0).1 (by decide),
   (C11_failed_reconfiguration_atomic session_48k 24000 1 100 100 7 0 64000 24000 1
      { handle := 5, create_status := -1, bitrate_status := 0, complexity_status := 0 }
      0).2 (by decide)⟩

/-! ## C12: a bitrate change alone keeps the encoder -/

/-- C12. Let `ac_reconfigure_encoder` be called with the last encoding
sampling rate and channel count of the session. With a bitrate that differs
from the last one, no encoder is created or destroyed: the only call is the
live `opus_encoder_ctl` bitrate call on the session's encoder, the handle
stays, and when that call succeeds the function returns 0 and only
`last_encoding_bitrate` changes, to the new bitrate. With the last bitrate it
returns 0 without any call and without changing the session. -/
theorem C12_bitrate_applied_live (ac : ACSession) (bitrate : Int) (channels : Nat)
    (e : EncoderCreation) (ctl : Int)
    (hch : ac.last_encoding_channel_count = (channels : Int)) :
    (bitrate ≠ ac.last_encoding_bitrate →
      (ac_reconfigure_encoder ac bitrate ac.last_encoding_sampling_rate channels e ctl).ac.encoder
        = ac.encoder ∧
      (ac_reconfigure_encoder ac bitrate ac.last_encoding_sampling_rate channels e ctl).calls
        = [CodecCall.opus_encoder_ctl_bitrate ac.encoder bitrate] ∧
      (ctl = OPUS_OK →
        (ac_reconfigure_encoder ac bitrate ac.last_encoding_sampling_rate channels e ctl).ret
          = 0 ∧
        (ac_reconfigure_encoder ac bitrate ac.last_encoding_sampling_rate channels e ctl).ac
          = { ac with last_encoding_bitrate := bitrate })) ∧
    (bitrate = ac.last_encoding_bitrate →
      (ac_reconfigure_encoder ac bitrate ac.last_encoding_sampling_rate channels e ctl).ret
        = 0 ∧
      (ac_reconfigure_encoder ac bitrate ac.last_encoding_sampling_rate channels e ctl).calls
        = [] ∧
      (ac_reconfigure_encoder ac bitrate ac.last_encoding_sampling_rate channels e ctl).ac
        = ac) := by
  have h1 : ¬ (ac.last_encoding_sampling_rate ≠ ac.last_encoding_sampling_rate ∨
      ac.last_encoding_channel_count ≠ (channels : Int)) := by
    simp [hch]
  constructor
  · intro hb
    have hb' : ¬ ac.last_encoding_bitrate = bitrate := fun h => hb h.symm
    unfold ac_reconfigure_encoder
    rw [if_neg h1, if_neg hb']
    by_cases hctl : ctl = OPUS_OK
    · rw [if_neg (by simp [hctl])]
      refine ⟨rfl, rfl, fun _ => ⟨rfl, ?_⟩⟩
      simp [← hch]
    · rw [if_pos hctl]
      exact ⟨rfl, rfl, fun h => absurd h hctl⟩
  · intro hb
    unfold ac_reconfigure_encoder
    rw [if_neg h1, if_pos hb.symm]
    exact ⟨rfl, rfl, rfl⟩

/-- C12 at concrete calls on the session of `ac_new` (48000 Hz, 2 channels,
bitrate 48000): first bitrate 64000 with a successful control call, then the
unchanged bitrate 48000. -/
theorem C12_bitrate_applied_live_witness :
    ((ac_reconfigure_encoder session_48k 64000 48000 2
        { handle := 5, create_status := 0, bitrate_status := 0, complexity_status := 0 }
        0).ac.encoder = 2 ∧
      (ac_reconfigure_encoder session_48k 64000 48000 2
        { handle := 5, create_status := 0, bitrate_status := 0, complexity_status := 0 }
        0).calls = [CodecCall.opus_encoder_ctl_bitrate 2 64000] ∧
      (OPUS_OK = OPUS_OK →
        (ac_reconfigure_encoder session_48k 64000 48000 2
          { handle := 5, create_status := 0, bitrate_status := 0, complexity_status := 0 }
          0).ret = 0 ∧
        (ac_reconfigure_encoder session_48k 64000 48000 2
          { handle := 5, create_status := 0, bitrate_status := 0, complexity_status := 0 }
          0).ac = { session_48k with last_encoding_bitrate := 64000 })) ∧
    ((ac_reconfigure_encoder session_48k 48000 48000 2
        { handle := 5, create_status := 0, bitrate_status := 0, complexity_status := 0 }
        0).ret = 0 ∧
      (ac_reconfigure_encoder session_48k 48000 48000 2
        { handle := 5, create_status := 0, bitrate_status := 0, complexity_status := 0 }
        0).calls = [] ∧
      (ac_reconfigure_encoder session_48k 48000 48000 2
        { handle := 5, create_status := 0, bitrate_status := 0, complexity_status := 0 }
        0).ac = session_48k) :=
  ⟨(C12_bitrate_applied_live session_48k 64000 2
      { handle := 5, create_status := 0, bitrate_status := 0, complexity_status := 0 } 0
      (by decide)).1 (by decide),
   (C12_bitrate_applied_live session_48k 48000 2
      { handle := 5, create_status := 0, bitrate_status := 0, complexity_status := 0 } 0
      (by decide)).2 (by decide)⟩

/-! ## C13: how many messages one ac_do takes -/

/-- The loop of `ac_do` ends within its bound of iterations, for every session
and every answer of the clock and the codec. The run `r` stops either at a
division by zero (`r.fault`, where the C function does not return) or by
returning. Up to that point `opus_decode` was called at most once, and
`jbuf_read` once plus once after every message dropped for a failed decoder
reconfiguration; the jitter buffer is the result of that many `jbuf_read`
calls. -/
theorem ac_do_run_ends (w : World) (ac : ACSession) :
    ∃ r, ac_do w ac = some r ∧ count_decodes r.trace ≤ 1 ∧
      count_reads r.trace = count_dropped r.trace + 1 ∧
      r.ac.j_buf = (jbuf_read_times (count_reads r.trace) ac.j_buf).1 := by
  obtain ⟨r, k, e1, e2, e3, e4, e5⟩ := ac_do_loop_spec w (ac.j_buf.queue.length + 1) 0 ac
    [Event.mutex_lock]
    (Nat.lt_succ_of_le (List.countP_le_length _))
  have h1 : count_reads [Event.mutex_lock] = 0 := rfl
  have h2 : count_dropped [Event.mutex_lock] = 0 := rfl
  have h3 : count_decodes [Event.mutex_lock] = 0 := rfl
  rw [h1] at e2
  rw [h2] at e3
  rw [h3] at e4
  refine ⟨r, e1, by omega, by omega, ?_⟩
  rw [e5, e2, Nat.zero_add]

/-- C13 holds for the single step that `ac_do` intends but not for the code.
The session of `ac_new` holds two messages (0 and 1) whose payload announces
44100 Hz, and `opus_decoder_create` fails. One call of `ac_do` returns
(without a division by zero) after three `jbuf_read` calls: it frees both
messages and moves `bottom` from 0 to 2, because after each dropped message
the `continue` of line 162 evaluates the loop condition again. -/
theorem C13_continue_reads_again :
    (ac_do world_create_fails
      (ac_queue_message (ac_queue_message session_new (packet_44100 0)).ac
        (packet_44100 1)).ac).map DoResult.trace =
      some [Event.mutex_lock,
        Event.jbuf_read (some (packet_44100 0)) 1, Event.mutex_unlock,
        Event.reconfigure_failed, Event.rtp_free_msg (packet_44100 0),
        Event.jbuf_read (some (packet_44100 1)) 1, Event.mutex_unlock,
        Event.reconfigure_failed, Event.rtp_free_msg (packet_44100 1),
        Event.jbuf_read none 0, Event.mutex_unlock] ∧
    (ac_do world_create_fails
      (ac_queue_message (ac_queue_message session_new (packet_44100 0)).ac
        (packet_44100 1)).ac).map DoResult.fault = some false ∧
    (ac_queue_message (ac_queue_message session_new (packet_44100 0)).ac
      (packet_44100 1)).ac.j_buf.bottom = 0 ∧
    (ac_do world_create_fails
      (ac_queue_message (ac_queue_message session_new (packet_44100 0)).ac
        (packet_44100 1)).ac).map (fun r => r.ac.j_buf.bottom) = some 2 ∧
    (ac_do world_create_fails
      (ac_queue_message (ac_queue_message session_new (packet_44100 0)).ac
        (packet_44100 1)).ac).map (fun r => count_reads r.trace) = some 3 := by
  decide

/-! ## C14: the size jbuf_new chooses -/

/-- C14. For every capacity `c` with `4 * c < 2^31` the sizing loop of
`jbuf_new` ends and `jbuf_new` returns the buffer without messages,
`bottom = top = 0`, whose `size` is a power of two above `4 * c` that no
power of two above `4 * c` is below; `jbuf_new(3)` has size 16. -/
theorem C14_jbuf_new_size (c : Nat) (hc : 4 * c < 2147483648) :
    ∃ k, jbuf_new c true true = some (empty_buffer (2 ^ k) c 0) ∧ 4 * c < 2 ^ k ∧
      (∀ j, 4 * c < 2 ^ j → 2 ^ k ≤ 2 ^ j) ∧
      jbuf_new 3 true true = some (empty_buffer 16 3 0) := by
  obtain ⟨k, h1, h2, h3⟩ := jbuf_new_loop_pow c hc 64 0 (Or.inl rfl) (by omega)
  refine ⟨k, ?_, h2, ?_, by decide⟩
  · unfold jbuf_new
    rw [show (1 : Nat) = 2 ^ 0 from rfl, h1]
    rfl
  · intro j hj
    rcases h3 with h3 | h3
    · subst h3; exact Nat.one_le_two_pow
    · have : 2 ^ (k - 1) < 2 ^ j := by omega
      have hlt : k - 1 < j := (Nat.pow_lt_pow_iff_right (by decide)).1 this
      exact Nat.pow_le_pow_right (by decide) (by omega)

/-- C14 at capacity 3. -/
theorem C14_jbuf_new_size_witness :
    ∃ k, jbuf_new 3 true true = some (empty_buffer (2 ^ k) 3 0) ∧ 4 * 3 < 2 ^ k ∧
      (∀ j, 4 * 3 < 2 ^ j → 2 ^ k ≤ 2 ^ j) ∧
      jbuf_new 3 true true = some (empty_buffer 16 3 0) :=
  C14_jbuf_new_size 3 (by decide)

/-! ## C15: the empty results of jbuf_read -/

/-- C15, as stated, fails. After `jbuf_new(3)`, writes of the messages 20 and
0 and one read, the buffer has `bottom = 65534` and `top = 1`; the slot of
`bottom` is empty and `top - bottom` is at most the capacity, as a plain
difference (-65533) and modulo 65536 (3). `jbuf_read` reports a loss
(`*success = 2`) and moves `bottom` to 65535. -/
theorem C15_counterexample :
    Reachable 3 (jbuf_read (jbuf_write_list buffer_new3 [frame 20, frame 0]).1).q ∧
    (jbuf_read (jbuf_write_list buffer_new3 [frame 20, frame 0]).1).q.bottom = 65534 ∧
    (jbuf_read (jbuf_write_list buffer_new3 [frame 20, frame 0]).1).q.top = 1 ∧
    (jbuf_read (jbuf_write_list buffer_new3 [frame 20, frame 0]).1).q.slot (65534 % 16) = none ∧
    ((1 : Int) - 65534 ≤ 3) ∧ (1 + 65536 - 65534) % 65536 ≤ 3 ∧
    (jbuf_read (jbuf_read (jbuf_write_list buffer_new3 [frame 20, frame 0]).1).q).success = 2 ∧
    (jbuf_read (jbuf_read (jbuf_write_list buffer_new3 [frame 20, frame 0]).1).q).q.bottom
      = 65535 :=
  ⟨Reachable.read _ (reachable_write_list 3 _ _ reachable_buffer_new3 (by decide)),
   by decide, by decide, by decide, by decide, by decide, by decide, by decide⟩

/-- C15, amended. For every buffer, `jbuf_read` returns no message with
`*success = 0` and leaves the buffer unchanged when `top = bottom`, and also
when `bottom <= top`, the slot at `bottom % size` is empty and `top - bottom`
is at most `capacity`. -/
theorem C15_jbuf_read_empty (q : JitterBuffer) (hwf : q.WF)
    (h : q.top = q.bottom ∨
      (q.bottom ≤ q.top ∧ q.slot (q.bottom % q.size) = none ∧
        q.top - q.bottom ≤ q.capacity)) :
    jbuf_read q = { msg := none, success := 0, q := q } := by
  unfold jbuf_read
  rcases h with h | ⟨h1, h2, h3⟩
  · rw [if_pos h]
  · by_cases he : q.top = q.bottom
    · rw [if_pos he]
    · have h4 : ¬ to_uint32 ((q.top : Int) - (q.bottom : Int)) > q.capacity := by
        have := to_uint32_cast ((q.top : Int) - (q.bottom : Int))
        have := hwf.2.2.2.2.2
        omega
      rw [if_neg he, h2]
      simp only [h4, if_false]

/-- C15 amended, at a concrete buffer: message 12 is stored, `bottom = 10`,
`top = 13`, capacity 3. -/
theorem C15_jbuf_read_empty_witness :
    jbuf_read (jbuf_write buffer_at10 (frame 12)).q =
      { msg := none, success := 0, q := (jbuf_write buffer_at10 (frame 12)).q } :=
  C15_jbuf_read_empty (jbuf_write buffer_at10 (frame 12)).q (by decide)
    (Or.inr (by decide))

/-! ## C16: the mutex in ac_do -/

/-- C16 holds for the locking that `ac_do` intends but not for the code. The
session of `ac_new` holds message 0, whose payload announces 44100 Hz, and
`opus_decoder_create` fails. `ac_do` locks, reads, unlocks, drops the message
and, by `continue`, calls `jbuf_read` again without locking, then unlocks
again. Started with hold counter 0 the second `jbuf_read` runs while the
mutex is not held; started with hold counter 1 the call ends with counter 0. -/
theorem C16_read_without_mutex :
    (ac_do world_create_fails
      (ac_queue_message session_new (packet_44100 0)).ac).map DoResult.trace =
      some [Event.mutex_lock,
        Event.jbuf_read (some (packet_44100 0)) 1, Event.mutex_unlock,
        Event.reconfigure_failed, Event.rtp_free_msg (packet_44100 0),
        Event.jbuf_read none 0, Event.mutex_unlock] ∧
    mutex_discipline 0 [Event.mutex_lock,
        Event.jbuf_read (some (packet_44100 0)) 1, Event.mutex_unlock,
        Event.reconfigure_failed, Event.rtp_free_msg (packet_44100 0),
        Event.jbuf_read none 0, Event.mutex_unlock] = none ∧
    mutex_discipline 1 [Event.mutex_lock,
        Event.jbuf_read (some (packet_44100 0)) 1, Event.mutex_unlock,
        Event.reconfigure_failed, Event.rtp_free_msg (packet_44100 0),
        Event.jbuf_read none 0, Event.mutex_unlock] = some 0 ∧
    mutex_discipline 0 (ac_queue_message session_new (packet_44100 0)).trace = some 0 := by
  decide

/-! ## C17: the sample buffer of ac_do -/

/-- C17 holds for the size the buffer needs but not for the code. The frame
size passed to `opus_decode` is 5760 samples per channel, which is 120 ms at
48 kHz; with 2 channels the decoder may write 11520 interleaved samples, and
`tmp` has room for 5760. -/
theorem C17_tmp_shorter_than_stereo_frame :
    decode_frame_size = 48000 * 120 / 1000 ∧
    (tmp_length : Int) = decode_frame_size ∧
    decode_output_samples decode_frame_size 2 = 11520 ∧
    (tmp_length : Int) < decode_output_samples decode_frame_size 2 := by
  decide

/-! ## C18: the divisor of the concealment size -/

/-- C18 holds for what the concealment needs but not for the code. `ac_new`
leaves `last_packet_channel_count` at the 0 of `calloc`. After
`ac_queue_message` of message 5 the first `ac_do` gets a loss result from
`jbuf_read` and divides by `last_packet_channel_count = 0`, whatever the
environment answers. -/
theorem C18_first_loss_divides_by_zero :
    ac_new creation_ok 0 0 (some 9) 0 = some session_new ∧
    session_new.last_packet_channel_count = 0 ∧
    (jbuf_read (ac_queue_message session_new (frame 5)).ac.j_buf).success = 2 ∧
    plc_frame_size session_new.last_packet_sampling_rate
      session_new.last_packet_frame_duration session_new.last_packet_channel_count = none ∧
    (∀ w : World, (ac_do w (ac_queue_message session_new (frame 5)).ac).map DoResult.trace =
      some [Event.mutex_lock, Event.jbuf_read none 2, Event.mutex_unlock]) ∧
    (∀ w : World, (ac_do w (ac_queue_message session_new (frame 5)).ac).map DoResult.fault =
      some true) :=
  ⟨by decide, by decide, by decide, by decide, fun _ => rfl, fun _ => rfl⟩

/-! ## C19: frame duration and concealment size -/

theorem whole_ms_arithmetic (R C d : Int)
    (hR : R ∈ [8000, 12000, 16000, 24000, 48000]) (hC : C ∈ [1, 2])
    (hd : d ∈ [5, 10, 20, 40, 60]) :
    ¬ R / 1000 * d < 0 ∧
    frame_duration (R / 1000 * d) R C = some (d * C) ∧
    plc_frame_size R (d * C) C = some (R / 1000 * d) ∧
    (R * (((R / 1000 * d) * 1000 / R) * C) / 1000) / C = R / 1000 * d := by
  simp only [List.mem_cons, List.mem_singleton, List.not_mem_nil, or_false] at hR hC hd
  rcases hR with rfl | rfl | rfl | rfl | rfl <;> rcases hC with rfl | rfl <;>
    rcases hd with rfl | rfl | rfl | rfl | rfl <;> decide

/-- C19, as stated, fails. A 2.5 ms frame at 48000 Hz has 120 samples per
channel. After `opus_decode` returned 120 for a mono session with a callback,
`last_packet_frame_duration` is 2, and the concealment size is 96, not 120. -/
theorem C19_counterexample :
    (120 : Int) * 1000 = 48000 * 25 / 10 ∧
    (ac_do_finish { session_new with last_packet_channel_count := 1 } [] 120).ac
      = { session_new with last_packet_channel_count := 1, last_packet_frame_duration := 2 } ∧
    plc_frame_size 48000 2 1 = some 96 ∧
    ((48000 * (((120 * 1000) / 48000) * 1) / 1000) / 1 : Int) = 96 := by
  decide

/-- C19, amended. For every sampling rate `R` in 8000, 12000, 16000, 24000,
48000, channel count `C` in 1, 2 and frame of a whole number `d` of
milliseconds (5, 10, 20, 40 or 60; `n = R / 1000 * d` samples per channel):
after `opus_decode` returned `n` for a session with a callback whose last
packet had rate `R` and `C` channels, `last_packet_frame_duration` is
`d * C`, the concealment size computed from the session is `n`, and
`(R * (((n * 1000) / R) * C) / 1000) / C = n`. -/
theorem C19_whole_ms_round_trip (ac : ACSession) (tr : List Event) (cb : Nat) (R C d : Int)
    (hR : R ∈ [8000, 12000, 16000, 24000, 48000]) (hC : C ∈ [1, 2])
    (hd : d ∈ [5, 10, 20, 40, 60])
    (hsr : ac.last_packet_sampling_rate = R) (hch : ac.last_packet_channel_count = C)
    (hcb : ac.acb_first = some cb) :
    (ac_do_finish ac tr (R / 1000 * d)).ac.last_packet_frame_duration = d * C ∧
    plc_frame_size (ac_do_finish ac tr (R / 1000 * d)).ac.last_packet_sampling_rate
      (ac_do_finish ac tr (R / 1000 * d)).ac.last_packet_frame_duration
      (ac_do_finish ac tr (R / 1000 * d)).ac.last_packet_channel_count =
        some (R / 1000 * d) ∧
    (R * (((R / 1000 * d) * 1000 / R) * C) / 1000) / C = R / 1000 * d := by
  obtain ⟨a1, a2, a3, a4⟩ := whole_ms_arithmetic R C d hR hC hd
  have hfin : ac_do_finish ac tr (R / 1000 * d) =
      { ac := { ac with last_packet_frame_duration := d * C },
        trace := tr ++ [Event.callback (R / 1000 * d * ac.last_packet_channel_count)
          ac.last_packet_channel_count ac.last_packet_sampling_rate],
        fault := false } := by
    unfold ac_do_finish
    rw [if_neg a1, hcb]
    simp only [hsr, hch, a2]
  rw [hfin]
  refine ⟨rfl, ?_, a4⟩
  show plc_frame_size ac.last_packet_sampling_rate (d * C) ac.last_packet_channel_count = _
  rw [hsr, hch, a3]

/-- C19 amended, at a 20 ms stereo frame at 48000 Hz (960 samples). -/
theorem C19_whole_ms_round_trip_witness :
    (ac_do_finish { session_new with last_packet_channel_count := 2 } []
      (48000 / 1000 * 20)).ac.last_packet_frame_duration = 20 * 2 ∧
    plc_frame_size
      (ac_do_finish { session_new with last_packet_channel_count := 2 } []
        (48000 / 1000 * 20)).ac.last_packet_sampling_rate
      (ac_do_finish { session_new with last_packet_channel_count := 2 } []
        (48000 / 1000 * 20)).ac.last_packet_frame_duration
      (ac_do_finish { session_new with last_packet_channel_count := 2 } []
        (48000 / 1000 * 20)).ac.last_packet_channel_count = some (48000 / 1000 * 20) ∧
    ((48000 : Int) * (((48000 / 1000 * 20) * 1000 / 48000) * 2) / 1000) / 2
      = 48000 / 1000 * 20 :=
  C19_whole_ms_round_trip { session_new with last_packet_channel_count := 2 } [] 9
    48000 2 20 (by decide) (by decide) (by decide) rfl rfl rfl

/-! ## C20: a gap-free run in any order -/

/-- C20. Let the buffer hold no message, with `bottom = top = b`, and let
the messages with the sequence numbers `b, ..., b+n-1` (`n <= size`,
`b + n <= 65535`) be written in any order. Every write returns 0; the next
`n` reads return status 1 and the written messages, each once, in increasing
order of sequence number; afterwards `bottom = top = b + n`, every slot is
empty, and a further read returns no message with status 0 and changes
nothing. -/
theorem C20_permuted_run (q : JitterBuffer) (ms : List RTPMessage) (hwf : q.WF)
    (hempty : ∀ i, q.slot i = none) (hbt : q.top = q.bottom)
    (hperm : (ms.map RTPMessage.sequnum).Perm (List.range' q.bottom ms.length))
    (hn : ms.length ≤ q.size)
    (hnowrap : q.bottom + ms.length ≤ 65535) :
    (jbuf_write_list q ms).2 = List.replicate ms.length 0 ∧
    (jbuf_read_times ms.length (jbuf_write_list q ms).1).2.map Prod.snd =
      List.replicate ms.length 1 ∧
    (returned_messages (jbuf_read_times ms.length (jbuf_write_list q ms).1).2).Perm ms ∧
    (returned_messages (jbuf_read_times ms.length (jbuf_write_list q ms).1).2).map
      RTPMessage.sequnum = List.range' q.bottom ms.length ∧
    (jbuf_read_times ms.length (jbuf_write_list q ms).1).1.bottom = q.bottom + ms.length ∧
    (jbuf_read_times ms.length (jbuf_write_list q ms).1).1.top = q.bottom + ms.length ∧
    (∀ i, (jbuf_read_times ms.length (jbuf_write_list q ms).1).1.slot i = none) ∧
    jbuf_read (jbuf_read_times ms.length (jbuf_write_list q ms).1).1 =
      { msg := none, success := 0,
        q := (jbuf_read_times ms.length (jbuf_write_list q ms).1).1 } := by
  obtain ⟨g1, _, _, _, g5, g6⟩ := jbuf_gap_free_run q ms hwf hempty hbt hperm hn hnowrap
  obtain ⟨s1, s2, s3, s4⟩ := jbuf_gap_free_run_sorted q ms hwf hempty hbt hperm hn hnowrap
  refine ⟨g1, s1, s2, s3, g5, g6, s4, ?_⟩
  unfold jbuf_read
  rw [if_pos (by rw [g5, g6])]

/-- C20 at a concrete input: 103, 100, 104, 101, 102 arrive at the empty
buffer of 16 slots with `bottom = top = 100`. -/
theorem C20_permuted_run_witness :
    (jbuf_write_list (empty_buffer 16 3 100)
      [frame 103, frame 100, frame 104, frame 101, frame 102]).2 = List.replicate 5 0 ∧
    (jbuf_read_times 5 (jbuf_write_list (empty_buffer 16 3 100)
      [frame 103, frame 100, frame 104, frame 101, frame 102]).1).2.map Prod.snd =
      List.replicate 5 1 ∧
    (returned_messages (jbuf_read_times 5 (jbuf_write_list (empty_buffer 16 3 100)
      [frame 103, frame 100, frame 104, frame 101, frame 102]).1).2).Perm
      [frame 103, frame 100, frame 104, frame 101, frame 102] ∧
    (returned_messages (jbuf_read_times 5 (jbuf_write_list (empty_buffer 16 3 100)
      [frame 103, frame 100, frame 104, frame 101, frame 102]).1).2).map
      RTPMessage.sequnum = List.range' 100 5 ∧
    (jbuf_read_times 5 (jbuf_write_list (empty_buffer 16 3 100)
      [frame 103, frame 100, frame 104, frame 101, frame 102]).1).1.bottom = 100 + 5 ∧
    (jbuf_read_times 5 (jbuf_write_list (empty_buffer 16 3 100)
      [frame 103, frame 100, frame 104, frame 101, frame 102]).1).1.top = 100 + 5 ∧
    (∀ i, (jbuf_read_times 5 (jbuf_write_list (empty_buffer 16 3 100)
      [frame 103, frame 100, frame 104, frame 101, frame 102]).1).1.slot i = none) ∧
    jbuf_read (jbuf_read_times 5 (jbuf_write_list (empty_buffer 16 3 100)
      [frame 103, frame 100, frame 104, frame 101, frame 102]).1).1 =
      { msg := none, success := 0,
        q := (jbuf_read_times 5 (jbuf_write_list (empty_buffer 16 3 100)
          [frame 103, frame 100, frame 104, frame 101, frame 102]).1).1 } :=
  C20_permuted_run (empty_buffer 16 3 100)
    [frame 103, frame 100, frame 104, frame 101, frame 102]
    (by decide) (empty_buffer_slot 16 3 100) rfl (by decide) (by decide) (by decide)

end Toxav
